import Mathlib

/-!
Verification of the rithcon agent runtime (browser-automation extension).

Shallow embedding of the plan sanitizer, risk classifier, fast planner
(`agent.js`), the tab dispatch / retry / run-state machinery
(`background.js`) and the element resolver / page operations
(`content.js`).  JavaScript values reaching the untrusted-input paths are
modelled by the inductive `JSValue`; machine strings are Lean `String`s
manipulated through explicit `List Char` helpers mirroring the JS string
operations the code uses.
-/

namespace Rithcon

/-! ## Character-list string helpers (models of the JS string operations) -/

/-- Model of the JS word character class `\w` = `[A-Za-z0-9_]`. -/
def isWordChar (c : Char) : Bool :=
  c.isAlphanum || c == '_'

/-- Does the first list occur at the head of the second (exact chars)? -/
def chPfx : List Char → List Char → Bool
  | [], _ => true
  | _ :: _, [] => false
  | n :: ns, h :: hs => n == h && chPfx ns hs

/-- Case-insensitive variant of `chPfx`: the needle is expected lowercase,
the haystack is lowered character-wise (model of a `/i` regex flag). -/
def chPfxCI : List Char → List Char → Bool
  | [], _ => true
  | _ :: _, [] => false
  | n :: ns, h :: hs => n == h.toLower && chPfxCI ns hs

/-- Does the needle occur anywhere in the haystack?  Model of
`String.prototype.includes`. -/
def chSub (needle : List Char) : List Char → Bool
  | [] => needle.isEmpty
  | h :: hs => chPfx needle (h :: hs) || chSub needle hs

/-- Model of `haystack.includes(needle)` on JS strings. -/
def strContains (hay needle : String) : Bool :=
  chSub needle.data hay.data

/-- Model of `String.prototype.toLowerCase` (ASCII-faithful). -/
def toLowerStr (s : String) : String :=
  ⟨s.data.map Char.toLower⟩

/-- Model of `String.prototype.toUpperCase` (ASCII-faithful). -/
def toUpperStr (s : String) : String :=
  ⟨s.data.map Char.toUpper⟩

/-- Model of `String.prototype.trim`. -/
def jsTrim (s : String) : String :=
  ⟨((s.data.dropWhile Char.isWhitespace).reverse.dropWhile Char.isWhitespace).reverse⟩

/-- Model of `s.slice(0, n)` for a non-negative `n`. -/
def strTake (s : String) (n : Nat) : String :=
  ⟨s.data.take n⟩

/-- Model of `s.slice(-n)`: the last `n` characters (whole string if shorter). -/
def strTakeRight (s : String) (n : Nat) : String :=
  ⟨s.data.drop (s.data.length - n)⟩

/-- Clamp helper shared by `agent.js`, `background.js` and `content.js`:
`Math.min(max, Math.max(min, value))`. -/
def clamp (value lo hi : Int) : Int :=
  min hi (max lo value)

/-- JS `a || b` on strings: `b` when `a` is empty, else `a`. -/
def strOr (a b : String) : String :=
  if a = "" then b else a

/-! ## JS value model

Untrusted planner output is arbitrary JSON-decoded data.  `JSValue`
models such values.  The numeric coercions model `Number(x)` on the
value shapes the sanitizer meets; `none` plays the role of `NaN`
(arrays/objects are coerced to `NaN` here, a documented simplification
of JS `toPrimitive`, and only integral numerals are modelled). -/

inductive JSValue where
  | vNull
  | vBool (b : Bool)
  | vNum (n : Int)
  | vStr (s : String)
  | vArr (items : List JSValue)
  | vObj (fields : List (String × JSValue))
deriving Repr

/-- Look a key up in an object (other values have no own properties here,
modelling `undefined` for the property reads the sanitizer performs). -/
def jsGet : JSValue → String → Option JSValue
  | .vObj fs, key => (fs.find? (fun p => p.1 == key)).map Prod.snd
  | _, _ => none

/-- JS truthiness of a present value. -/
def jsTruthy : JSValue → Bool
  | .vNull => false
  | .vBool b => b
  | .vNum n => n != 0
  | .vStr s => s != ""
  | .vArr _ => true
  | .vObj _ => true

/-- JS truthiness of a possibly-absent value (`undefined` is falsy). -/
def jsTruthyOpt : Option JSValue → Bool
  | none => false
  | some v => jsTruthy v

/-- Is a numeral string (optional sign, one or more digits)?  Used by the
`Number(string)` model below. -/
def numeralChars : List Char → Bool
  | [] => false
  | '-' :: rest => rest ≠ [] && rest.all Char.isDigit
  | '+' :: rest => rest ≠ [] && rest.all Char.isDigit
  | l => l.all Char.isDigit

/-- Parse a numeral string into an integer (sound on inputs accepted by
`numeralChars`). -/
def parseNumeral (l : List Char) : Int :=
  match l with
  | '-' :: rest => -(Int.ofNat (rest.foldl (fun a c => a * 10 + c.toNat - '0'.toNat) 0))
  | '+' :: rest => Int.ofNat (rest.foldl (fun a c => a * 10 + c.toNat - '0'.toNat) 0)
  | _ => Int.ofNat (l.foldl (fun a c => a * 10 + c.toNat - '0'.toNat) 0)

/-- Model of JS `Number(x)`; `none` models `NaN`. -/
def jsToNumber : Option JSValue → Option Int
  | none => none
  | some .vNull => some 0
  | some (.vBool b) => some (if b then 1 else 0)
  | some (.vNum n) => some n
  | some (.vStr s) =>
    let t := jsTrim s
    if t = "" then some 0
    else if numeralChars t.data then some (parseNumeral t.data) else none
  | some (.vArr _) => none
  | some (.vObj _) => none

/-- Model of `Number(x) || d`: `NaN` and `0` both fall back to `d`. -/
def jsNumOr (v : Option JSValue) (d : Int) : Int :=
  match jsToNumber v with
  | none => d
  | some n => if n = 0 then d else n

/-- Model of `String(x)` restricted to the shapes `normalizeTarget` meets. -/
def jsToString : JSValue → String
  | .vNull => "null"
  | .vBool b => if b then "true" else "false"
  | .vNum n => toString n
  | .vStr s => s
  | .vArr _ => ""
  | .vObj _ => "[object Object]"

/-! ## Constants and the allowed-action sets (`agent.js` lines 3-36) -/

def MAX_PLAN_STEPS : Nat := 20
def MAX_TODOS : Nat := 12
def MAX_SELECTOR_LENGTH : Nat := 320
def MAX_FIELD_TEXT_LENGTH : Nat := 1200
def MAX_REPLY_LENGTH : Nat := 2500

/-- `LOW_RISK_ACTIONS` (`agent.js` lines 10-18). -/
def LOW_RISK_ACTIONS : List String :=
  ["ANALYZE_PAGE", "SCRAPE_PAGE", "VISUALIZE_PAGE", "GOOGLE_SEARCH",
   "SEARCH_YOUTUBE", "PLAY_MEDIA", "WAIT"]

/-- `TAB_ACTIONS` (`agent.js` lines 20-34). -/
def TAB_ACTIONS : List String :=
  ["NAVIGATE", "SEARCH_YOUTUBE", "GOOGLE_SEARCH", "PLAY_MEDIA", "CLICK",
   "TYPE", "FILL_FORM", "ANALYZE_PAGE", "SCRAPE_PAGE", "VISUALIZE_PAGE",
   "OPEN_TAB", "SWITCH_TAB", "WAIT"]

/-- `ALLOWED_ACTIONS = new Set([...TAB_ACTIONS, 'REPLY'])` (`agent.js` line 36). -/
def ALLOWED_ACTIONS : List String :=
  TAB_ACTIONS ++ ["REPLY"]

/-! ## Target specifications

`normalizeTarget` (`agent.js` lines 560-599) produces plain `{mode, value}`
objects drawn from five shapes; `TargetSpec` is that closed set. -/

inductive TargetSpec where
  | active
  | all
  | tabId (id : Int)
  | domain (value : String)
  | urlContains (value : String)
deriving Repr, DecidableEq

/-- `sanitizeText` (`agent.js` lines 612-621): non-strings become `""`,
strings are trimmed and truncated to `maxLength`. -/
def sanitizeText (text : Option JSValue) (maxLength : Nat) : String :=
  match text with
  | some (.vStr s) =>
    let trimmed := jsTrim s
    if trimmed = "" then "" else strTake trimmed maxLength
  | _ => ""

/-- `sanitizeSelector` (`agent.js` lines 601-610). -/
def sanitizeSelector (selector : Option JSValue) : String :=
  match selector with
  | some (.vStr s) =>
    let trimmed := jsTrim s
    if trimmed = "" || trimmed.data.length > MAX_SELECTOR_LENGTH then "" else trimmed
  | _ => ""

/-! ## URL model

`sanitizeUrl` (`agent.js` lines 623-643) and `getHostFromStep`
(`agent.js` lines 1206-1215) rely on the WHATWG `URL` constructor.  We
model it for plain `http(s)` URLs: an optional `userinfo@`, a non-empty
whitespace-free host (lowercased on serialisation), an optional port and
a path/query/fragment part; serialisation inserts the mandatory `/`
before an empty or query/fragment-initial path. -/

/-- Split `scheme://rest` for `http`/`https` (scheme case-insensitive). -/
def schemeSplit (s : String) : Option (String × String) :=
  if chPfxCI "https://".data s.data then some ("https", ⟨s.data.drop 8⟩)
  else if chPfxCI "http://".data s.data then some ("http", ⟨s.data.drop 7⟩)
  else none

/-- Components of a parsed http(s) URL. -/
structure UrlParts where
  scheme : String
  authority : String
  tailPart : String
deriving Repr, DecidableEq

/-- Parse a candidate string as an http(s) URL (model of `new URL`;
`none` models the constructor throwing). -/
def parseHttpUrl (s : String) : Option UrlParts :=
  match schemeSplit s with
  | none => none
  | some (scheme, rest) =>
    let authority := rest.data.takeWhile (fun c => !(c == '/' || c == '?' || c == '#'))
    let tail := rest.data.drop authority.length
    if authority.isEmpty || authority.any Char.isWhitespace then none
    else some ⟨scheme, ⟨authority⟩, ⟨tail⟩⟩

/-- Model of `URL.prototype.toString` for `parseHttpUrl` results. -/
def urlToString (u : UrlParts) : String :=
  let tail :=
    match u.tailPart.data with
    | [] => "/"
    | c :: _ => if c == '?' || c == '#' then "/" ++ u.tailPart else u.tailPart
  u.scheme ++ "://" ++ toLowerStr u.authority ++ tail

/-- Model of `new URL(u).hostname.toLowerCase()`: strip userinfo and port
from the authority. -/
def urlHostname (u : UrlParts) : String :=
  let afterAt :=
    if u.authority.data.contains '@' then
      (u.authority.data.reverse.takeWhile (fun c => c != '@')).reverse
    else u.authority.data
  toLowerStr ⟨afterAt.takeWhile (fun c => c != ':')⟩

/-- `sanitizeUrl` (`agent.js` lines 623-643): trim, prepend `https://`
when no scheme is present, accept only http(s) parses, serialise. -/
def sanitizeUrl (input : Option JSValue) : String :=
  match input with
  | some (.vStr s) =>
    let trimmed := jsTrim s
    if trimmed = "" then ""
    else
      let candidate :=
        if (schemeSplit trimmed).isSome then trimmed else "https://" ++ trimmed
      match parseHttpUrl candidate with
      | some parts => urlToString parts
      | none => ""
  | _ => ""

/-! ## Sanitized plan steps -/

/-- A sanitized form field: the objects built by `sanitizeFormField`
(`agent.js` lines 516-541). -/
structure FormField where
  value : String
  selector : Option String := none
  name : Option String := none
  label : Option String := none
  placeholder : Option String := none
  type : Option String := none
deriving Repr, DecidableEq

/-- A sanitized action step: the JS objects built by `sanitizePlan`
(`agent.js` lines 382-514), discriminated by the string `action` field
exactly as in the source. -/
structure Step where
  action : String
  target : Option TargetSpec := none
  message : Option String := none
  url : Option String := none
  active : Option Bool := none
  tabId : Option Int := none
  query : Option String := none
  selector : Option String := none
  text : Option String := none
  clear : Option Bool := none
  fields : Option (List FormField) := none
  submit : Option Bool := none
  submitSelector : Option String := none
  includeText : Option Bool := none
  maxTextChars : Option Int := none
  maxChars : Option Int := none
  ms : Option Int := none
deriving Repr, DecidableEq

/-- `normalizeTarget` (`agent.js` lines 560-599).  The `fallback` is a
`TargetSpec` because every caller passes one produced by
`inferDefaultTarget`/`normalizeTarget` itself. -/
def normalizeTarget (target : Option JSValue) (fallback : TargetSpec) : TargetSpec :=
  match target with
  | none => fallback
  | some .vNull => fallback
  | some (.vBool _) => fallback
  | some (.vNum _) => fallback
  | some (.vStr s) =>
    let normalized := jsTrim (toLowerStr s)
    if normalized = "all" then .all
    else if normalized = "active" || normalized = "current" then .active
    else if strContains normalized "." && !strContains normalized " " then .domain normalized
    else fallback
  | some (.vArr _) => fallback
  | some (.vObj fs) =>
    let modeField := jsGet (.vObj fs) "mode"
    let mode := toLowerStr (if jsTruthyOpt modeField then
      jsToString (modeField.getD .vNull) else "")
    if mode = "all" then .all
    else if mode = "active" then .active
    else if mode = "tab_id" then
      let raw :=
        match jsGet (.vObj fs) "value" with
        | none => jsGet (.vObj fs) "tabId"
        | some .vNull => jsGet (.vObj fs) "tabId"
        | some v => some v
      match jsToNumber raw with
      | some tabId => if tabId > 0 then .tabId tabId else fallback
      | none => fallback
    else if mode = "url_contains" || mode = "domain" then
      let value := toLowerStr (sanitizeText (jsGet (.vObj fs) "value") 120)
      if value = "" then fallback
      else if mode = "url_contains" then .urlContains value else .domain value
    else fallback

/-- The guard `rawStep && typeof rawStep === 'object'` the sanitizer
applies to candidate steps and fields: a JS object or array. -/
def isObjectLike : JSValue → Bool
  | .vObj _ => true
  | .vArr _ => true
  | _ => false

/-- `sanitizeFormField` (`agent.js` lines 516-541). -/
def sanitizeFormField (field : JSValue) : Option FormField :=
  if isObjectLike field then
    let value := sanitizeText (jsGet field "value") MAX_FIELD_TEXT_LENGTH
    if value = "" then none
    else
      let selector := sanitizeSelector (jsGet field "selector")
      let name := sanitizeText (jsGet field "name") 120
      let label := sanitizeText (jsGet field "label") 120
      let placeholder := sanitizeText (jsGet field "placeholder") 120
      let type := sanitizeText (jsGet field "type") 32
      some
        { value
          selector := if selector = "" then none else some selector
          name := if name = "" then none else some name
          label := if label = "" then none else some label
          placeholder := if placeholder = "" then none else some placeholder
          type := if type = "" then none else some type }
  else none

/-- Abbreviation for a sanitized form field that kept its value and
carries matching `name`, `label` and `type` strings (selector and
placeholder absent), as produced from the fast plan's field literals. -/
def mkFilledField (v nm lb ty : String) : FormField :=
  { value := v, name := some nm, label := some lb, type := some ty }

/-- The sanitizer's `maxTextChars` clamp for `ANALYZE_PAGE` steps
(`agent.js` line 491): `clamp(Number(rawStep.maxTextChars) || 3000, 600, 9000)`. -/
def sanitizeAnalyzeMaxTextChars (maxTextChars : Option JSValue) : Int :=
  clamp (jsNumOr maxTextChars 3000) 600 9000

/-- The normalised action string of a raw candidate step (`agent.js`
lines 393-395): `rawStep.action.trim().toUpperCase()` when it is a
string, `''` otherwise. -/
def jsActionOf (rawStep : JSValue) : String :=
  match jsGet rawStep "action" with
  | some (.vStr s) => toUpperStr (jsTrim s)
  | _ => ""

/-- The action-directed part of `sanitizePlan`'s loop body (`agent.js`
lines 397-507), with the normalised action string as a parameter:
`none` models `continue` (the candidate is dropped). -/
def sanitizeByAction (rawStep : JSValue) (defaultTarget : TargetSpec)
    (action : String) : Option Step :=
  if action ∈ ALLOWED_ACTIONS then
      let baseTarget : Option TargetSpec :=
        if action ∈ TAB_ACTIONS then
          some (normalizeTarget (jsGet rawStep "target") defaultTarget)
        else none
      let base : Step := { action, target := baseTarget }
      if action = "REPLY" then
        let message := sanitizeText (jsGet rawStep "message") MAX_REPLY_LENGTH
        if message = "" then none else some { base with message := some message }
      else if action = "NAVIGATE" || action = "OPEN_TAB" then
        let url := sanitizeUrl (jsGet rawStep "url")
        if url = "" then none
        else if action = "OPEN_TAB" then
          some { base with url := some url,
                           active := some (jsTruthyOpt (jsGet rawStep "active")) }
        else some { base with url := some url }
      else if action = "SWITCH_TAB" then
        match jsToNumber (jsGet rawStep "tabId") with
        | none => none
        | some tabId => if tabId ≤ 0 then none else some { base with tabId := some tabId }
      else if action = "GOOGLE_SEARCH" || action = "SEARCH_YOUTUBE" then
        let query := sanitizeText (jsGet rawStep "query") 280
        if query = "" then none else some { base with query := some query }
      else if action = "PLAY_MEDIA" || action = "VISUALIZE_PAGE" then
        some base
      else if action = "CLICK" then
        let selector := sanitizeSelector (jsGet rawStep "selector")
        let text := sanitizeText (jsGet rawStep "text") 180
        if selector = "" && text = "" then none
        else some { base with
          selector := if selector = "" then none else some selector
          text := if text = "" then none else some text }
      else if action = "TYPE" then
        let selector := sanitizeSelector (jsGet rawStep "selector")
        let text := sanitizeText (jsGet rawStep "text") MAX_FIELD_TEXT_LENGTH
        if selector = "" || text = "" then none
        else
          let clearFlag :=
            match jsGet rawStep "clear" with
            | some (.vBool false) => false
            | _ => true
          some { base with selector := some selector, text := some text,
                           clear := some clearFlag }
      else if action = "FILL_FORM" then
        match jsGet rawStep "fields" with
        | some (.vArr rawFields) =>
          let fields := (rawFields.filterMap sanitizeFormField).take 12
          if fields.isEmpty then none
          else
            let submitSelector := sanitizeSelector (jsGet rawStep "submitSelector")
            some { base with fields := some fields,
                             submit := some (jsTruthyOpt (jsGet rawStep "submit")),
                             submitSelector :=
                               if submitSelector = "" then none else some submitSelector }
        | _ => none
      else if action = "ANALYZE_PAGE" then
        let includeTextFlag :=
          match jsGet rawStep "includeText" with
          | some (.vBool false) => false
          | _ => true
        some { base with
          includeText := some includeTextFlag
          maxTextChars := some (sanitizeAnalyzeMaxTextChars (jsGet rawStep "maxTextChars")) }
      else if action = "SCRAPE_PAGE" then
        some { base with maxChars := some (clamp (jsNumOr (jsGet rawStep "maxChars") 5000) 800 15000) }
      else if action = "WAIT" then
        some { base with ms := some (clamp (jsNumOr (jsGet rawStep "ms") 800) 80 20000) }
      else none
  else none

/-- The per-candidate body of `sanitizePlan`'s loop (`agent.js` lines
389-507): drop non-objects, normalise the action, dispatch by action. -/
def sanitizeStep (rawStep : JSValue) (defaultTarget : TargetSpec) : Option Step :=
  if isObjectLike rawStep then
    sanitizeByAction rawStep defaultTarget (jsActionOf rawStep)
  else none

/-- The `REPLY` step returned for a non-array plan (`agent.js` line 384). -/
def invalidPlanFormatStep : Step :=
  { action := "REPLY", message := some "Invalid plan format." }

/-- The `REPLY` step synthesised when sanitization keeps nothing
(`agent.js` line 510). -/
def couldNotBuildSafePlanStep : Step :=
  { action := "REPLY",
    message := some "I could not build a safe action plan for this request." }

/-- `sanitizePlan` (`agent.js` lines 382-514). -/
def sanitizePlan (plan : JSValue) (defaultTarget : TargetSpec) : List Step :=
  match plan with
  | .vArr rawSteps =>
    let sanitized :=
      (rawSteps.take MAX_PLAN_STEPS).filterMap (fun r => sanitizeStep r defaultTarget)
    if sanitized.isEmpty then [couldNotBuildSafePlanStep] else sanitized
  | _ => [invalidPlanFormatStep]

/-- Truncation of a raw candidate plan to the step cap, used to state that
`sanitizePlan` never looks past the first `MAX_PLAN_STEPS` candidates. -/
def truncateRawPlan : JSValue → JSValue
  | .vArr items => .vArr (items.take MAX_PLAN_STEPS)
  | v => v

/-- The per-step survivors of sanitization, before the empty-plan
fallback of `sanitizePlan` (the `sanitized` accumulator of `agent.js`
lines 387-507; `[]` for a non-array plan). -/
def sanitizedSteps (plan : JSValue) (defaultTarget : TargetSpec) : List Step :=
  match plan with
  | .vArr rawSteps =>
    (rawSteps.take MAX_PLAN_STEPS).filterMap (fun r => sanitizeStep r defaultTarget)
  | _ => []

/-! ## Regex models

The planner and the risk classifier use a handful of fixed JS regular
expressions.  Each is modelled by a dedicated scanner over `List Char`;
the `/i` flag is modelled by `chPfxCI`, `\b` by `isWordChar` boundary
checks.  Alternatives are tried left to right like the JS engine, and a
per-alternative right-boundary check models its backtracking. -/

/-- Left word boundary: position start, or previous char not a word char. -/
def boundaryOk : Option Char → Bool
  | none => true
  | some c => !isWordChar c

/-- Right word boundary after a match: end of input or next char not a
word char. -/
def rightBoundary : List Char → Bool
  | [] => true
  | c :: _ => !isWordChar c

/-- Does one alternative of a `/\b(a|b|...)\b/i` regex match here
(prefix match plus right boundary)?  The needle is lowercase. -/
def altHere (alt : List Char) (hay : List Char) : Bool :=
  chPfxCI alt hay && rightBoundary (hay.drop alt.length)

/-- Scanner for `/\b(a|b|...)\b/i`: try each position with boundary checks. -/
def wordAltScan (alts : List (List Char)) : Option Char → List Char → Bool
  | _, [] => false
  | pre, h :: hs =>
    (boundaryOk pre && alts.any (fun a => altHere a (h :: hs))) ||
      wordAltScan alts (some h) hs

/-- Test of a `/\b(a|b|...)\b/i` regex against a JS string (alternatives
given lowercase). -/
def wordAltTest (alts : List String) (s : String) : Bool :=
  wordAltScan (alts.map String.data) none s.data

/-- Test of a plain (unanchored, no `\b`) `/a|b|.../i` alternation:
case-insensitive substring search. -/
def substrAltTest (alts : List String) (s : String) : Bool :=
  alts.any (fun a => strContains (toLowerStr s) a)

/-! ## Risk classification (`agent.js` lines 716-780) -/

/-- `containsAuthIntent` (`agent.js` lines 768-770):
regex `\b(login|log in|sign in|register|sign up|password|otp|verification)\b/i`. -/
def containsAuthIntent (text : String) : Bool :=
  wordAltTest ["login", "log in", "sign in", "register", "sign up",
               "password", "otp", "verification"] text

/-- `containsSensitiveField` (`agent.js` lines 772-780): some field whose
descriptor text matches `/password|passcode|token|otp|secret|api key|apikey/i`. -/
def containsSensitiveField (step : Step) : Bool :=
  match step.fields with
  | none => false
  | some fields =>
    fields.any (fun field =>
      let descriptor := (field.name.getD "") ++ " " ++ (field.label.getD "") ++ " " ++
        (field.type.getD "") ++ " " ++ (field.placeholder.getD "")
      substrAltTest ["password", "passcode", "token", "otp", "secret",
                     "api key", "apikey"] descriptor)

/-- `getHostFromStep` (`agent.js` lines 1206-1215):
`new URL(step.url).hostname.toLowerCase()`, `""` on a missing/unparsable url. -/
def getHostFromStep (step : Step) : String :=
  match step.url with
  | none => ""
  | some url =>
    if url = "" then ""
    else
      match parseHttpUrl url with
      | some parts => urlHostname parts
      | none => ""

/-- The risk information objects built by `classifyStepRisk`. -/
structure RiskInfo where
  level : String
  reasons : List String
  timeoutMs : Option Int := none
deriving Repr, DecidableEq

/-- `classifyStepRisk` (`agent.js` lines 716-766). -/
def classifyStepRisk (step : Step) (prompt : String) (currentHost : String) : RiskInfo :=
  let action := step.action
  if action ∈ LOW_RISK_ACTIONS then
    { level := "low", reasons := [] }
  else if action = "NAVIGATE" || action = "OPEN_TAB" then
    let targetHost := getHostFromStep step
    let reasons :=
      if targetHost ≠ "" && currentHost ≠ "" && targetHost ≠ currentHost then
        ["navigates across domains (" ++ currentHost ++ " -> " ++ targetHost ++ ")"]
      else []
    if reasons ≠ [] then
      { level := "high", reasons, timeoutMs := some 25000 }
    else
      { level := "medium", reasons := ["navigation action"] }
  else if action = "FILL_FORM" then
    let reasons :=
      (if step.submit.getD false then ["submits a form"] else []) ++
      (if containsAuthIntent prompt then ["authentication flow"] else []) ++
      (if containsSensitiveField step then ["contains sensitive field values"] else [])
    { level := if reasons ≠ [] then "high" else "medium", reasons,
      timeoutMs := some 30000 }
  else if action = "CLICK" then
    let clickText := toLowerStr ((step.selector.getD "") ++ " " ++ (step.text.getD ""))
    if substrAltTest ["submit", "sign in", "signin", "login", "register",
                      "sign up", "signup", "checkout", "pay", "continue"] clickText then
      { level := "high", reasons := ["click may trigger submit/auth/payment"],
        timeoutMs := some 25000 }
    else
      { level := "medium", reasons := ["direct page interaction"] }
  else if action = "TYPE" then
    if containsAuthIntent prompt then
      { level := "high", reasons := ["typing during authentication flow"],
        timeoutMs := some 25000 }
    else
      { level := "medium", reasons := ["direct page interaction"] }
  else
    { level := "medium", reasons := ["interactive action"] }

/-! ## Fast-path planning (`agent.js` lines 1067-1204)

`Date.now()` and `Math.random()` are modelled by explicit parameters:
`now : Nat` is the clock reading, and `rand : Fin 12 → Fin 62` gives the
twelve indices `Math.floor(Math.random() * chars.length)` draws (the
charset has 62 characters, and a real draw always lies in `[0, 62)`). -/

/-- Scanner for the url regex `/https?:\/\/[^\s)]+/i`: first scheme
occurrence followed by at least one non-space, non-`)` character. -/
def urlMatchScan : List Char → Option (List Char)
  | [] => none
  | h :: hs =>
    if chPfxCI "https://".data (h :: hs) then
      let body := ((h :: hs).drop 8).takeWhile (fun c => !(c.isWhitespace || c == ')'))
      if body.isEmpty then urlMatchScan hs else some ((h :: hs).take 8 ++ body)
    else if chPfxCI "http://".data (h :: hs) then
      let body := ((h :: hs).drop 7).takeWhile (fun c => !(c.isWhitespace || c == ')'))
      if body.isEmpty then urlMatchScan hs else some ((h :: hs).take 7 ++ body)
    else urlMatchScan hs

/-- `prompt.match(/https?:\/\/[^\s)]+/i)`, first match or `none`. -/
def findUrlMatch (s : String) : Option String :=
  (urlMatchScan s.data).map (fun l => (⟨l⟩ : String))

/-- Capture of `([^\s,;]+)`: longest run of chars outside `\s,;`,
failing when empty. -/
def valueCapture (l : List Char) : Option (List Char) :=
  let cap := l.takeWhile (fun c => !(c.isWhitespace || c == ',' || c == ';'))
  if cap.isEmpty then none else some cap

/-- Tail of the key/value regexes `\s*(?:is|=|:)?\s*([^\s,;]+)`: greedy
optional separator with per-alternative backtracking. -/
def extractTail (rest : List Char) : Option (List Char) :=
  let r1 := rest.dropWhile Char.isWhitespace
  let tryOpt := fun (opt : List Char) =>
    if chPfxCI opt r1 then valueCapture ((r1.drop opt.length).dropWhile Char.isWhitespace)
    else none
  match tryOpt "is".data with
  | some cap => some cap
  | none =>
    match tryOpt "=".data with
    | some cap => some cap
    | none =>
      match tryOpt ":".data with
      | some cap => some cap
      | none => valueCapture r1

/-- Try the keyword alternatives (regex order) at the current position. -/
def tryKwsHere (kws : List (List Char)) (l : List Char) : Option (List Char) :=
  match kws with
  | [] => none
  | kw :: rest =>
    match (if chPfxCI kw l then extractTail (l.drop kw.length) else none) with
    | some cap => some cap
    | none => tryKwsHere rest l

/-- Scanner for `/(kw1|kw2)\s*(?:is|=|:)?\s*([^\s,;]+)/i` (no `\b`):
leftmost position where a keyword plus tail matches. -/
def extractScan (kws : List (List Char)) : List Char → Option (List Char)
  | [] => none
  | h :: hs =>
    match tryKwsHere kws (h :: hs) with
    | some cap => some cap
    | none => extractScan kws hs

/-- `extractPromptValue` (`agent.js` lines 1185-1191): the captured group,
trimmed (captures contain no whitespace, so a no-op) with one leading and
one trailing quote stripped (`replace(/^["']|["']$/g, '')`). -/
def extractPromptValue (prompt : String) (kws : List String) : String :=
  match extractScan (kws.map String.data) prompt.data with
  | none => ""
  | some cap =>
    let isQuote := fun (c : Char) => c == '"' || c == Char.ofNat 39
    let l1 := match cap with
      | c :: rest => if isQuote c then rest else cap
      | [] => cap
    let l2 := match l1.reverse with
      | c :: rest => if isQuote c then rest.reverse else l1
      | [] => l1
    ⟨l2⟩

/-- One alternative of `/\b(kw1|kw2)\s+random\b/i` at the current position. -/
def kwSpaceRandomHere (kw : List Char) (l : List Char) : Bool :=
  chPfxCI kw l &&
    (let r := l.drop kw.length
     let ws := r.takeWhile Char.isWhitespace
     !ws.isEmpty && chPfxCI "random".data (r.drop ws.length) &&
       rightBoundary ((r.drop ws.length).drop 6))

/-- Scanner for `/\b(kw1|kw2)\s+random\b/i`. -/
def kwSpaceRandomScan (kws : List (List Char)) : Option Char → List Char → Bool
  | _, [] => false
  | pre, h :: hs =>
    (boundaryOk pre && kws.any (fun kw => kwSpaceRandomHere kw (h :: hs))) ||
      kwSpaceRandomScan kws (some h) hs

/-- Test of `/\b(kw1|kw2)\s+random\b/i` against a JS string. -/
def kwSpaceRandomTest (kws : List String) (s : String) : Bool :=
  kwSpaceRandomScan (kws.map String.data) none s.data

/-- The password charset of `generateRandomPassword` (`agent.js` line 1194). -/
def passwordChars : List Char :=
  "ABCDEFGHJKLMNPQRSTUVWXYZabcdefghijkmnopqrstuvwxyz23456789!@#$%".data

/-- `generateRandomPassword` (`agent.js` lines 1193-1200): twelve draws
from the charset. -/
def generateRandomPassword (rand : Fin 12 → Fin 62) : String :=
  ⟨(List.finRange 12).map (fun i => passwordChars.getD (rand i).val 'a')⟩

/-- `Date.now().toString().slice(-6)`. -/
def nowSuffix (now : Nat) : String :=
  strTakeRight (toString now) 6

/-- `safeEmail.split('@')[0]`: the prefix before the first `@`. -/
def emailLocalPart (s : String) : String :=
  ⟨s.data.takeWhile (fun c => c != '@')⟩

/-- The record returned by `extractAuthDetails`. -/
structure AuthDetails where
  email : String
  password : String
  username : String
deriving Repr, DecidableEq

/-- `extractAuthDetails` (`agent.js` lines 1160-1183). -/
def extractAuthDetails (prompt : String) (rand : Fin 12 → Fin 62) (now : Nat) :
    AuthDetails :=
  let email := extractPromptValue prompt ["email", "e-mail"]
  let passwordRaw := extractPromptValue prompt ["password", "pass"]
  let username := extractPromptValue prompt ["username", "user"]
  let wantsRandomPassword :=
    kwSpaceRandomTest ["password", "pass"] prompt ||
      wordAltTest ["random password"] prompt
  let wantsRandomEmail :=
    kwSpaceRandomTest ["email"] prompt || wordAltTest ["random email"] prompt
  let safeEmail :=
    if email ≠ "" && !wantsRandomEmail then email
    else "user" ++ nowSuffix now ++ "@example.com"
  let safePassword :=
    if passwordRaw ≠ "" && !wantsRandomPassword && toLowerStr passwordRaw ≠ "random" then
      passwordRaw
    else generateRandomPassword rand
  let safeUsername := if username ≠ "" then username else emailLocalPart safeEmail
  { email := safeEmail, password := safePassword, username := safeUsername }

/-- Encoding of a `TargetSpec` as the plain JS object literal the fast
planner embeds into raw steps. -/
def encodeTarget : TargetSpec → JSValue
  | .active => .vObj [("mode", .vStr "active")]
  | .all => .vObj [("mode", .vStr "all")]
  | .tabId n => .vObj [("mode", .vStr "tab_id"), ("value", .vNum n)]
  | .domain v => .vObj [("mode", .vStr "domain"), ("value", .vStr v)]
  | .urlContains v => .vObj [("mode", .vStr "url_contains"), ("value", .vStr v)]

/-- The raw `NAVIGATE` object literal of the fast plan (`agent.js`
lines 1080-1084). -/
def fastNavRaw (url : String) (defaultTarget : TargetSpec) : JSValue :=
  .vObj [("action", .vStr "NAVIGATE"), ("url", .vStr url),
         ("target", encodeTarget defaultTarget)]

/-- The raw `ANALYZE_PAGE` object literal of the fast plan (`agent.js`
lines 1085-1090). -/
def fastAnalyzeRaw (defaultTarget : TargetSpec) : JSValue :=
  .vObj [("action", .vStr "ANALYZE_PAGE"), ("includeText", .vBool true),
         ("maxTextChars", .vNum 2500), ("target", encodeTarget defaultTarget)]

/-- The raw `FILL_FORM` object literal of the fast plan (`agent.js`
lines 1091-1101). -/
def fastFillRaw (email username password : String)
    (defaultTarget : TargetSpec) : JSValue :=
  .vObj [("action", .vStr "FILL_FORM"),
         ("fields", .vArr [
           .vObj [("label", .vStr "email"), ("name", .vStr "email"),
                  ("type", .vStr "email"), ("value", .vStr email)],
           .vObj [("label", .vStr "username"), ("name", .vStr "username"),
                  ("type", .vStr "text"), ("value", .vStr username)],
           .vObj [("label", .vStr "password"), ("name", .vStr "password"),
                  ("type", .vStr "password"), ("value", .vStr password)],
           .vObj [("label", .vStr "confirm password"),
                  ("name", .vStr "confirm password"),
                  ("type", .vStr "password"), ("value", .vStr password)]]),
         ("submit", .vBool true),
         ("target", encodeTarget defaultTarget)]

/-- `maybeBuildFastPlan` (`agent.js` lines 1067-1106): raw (unsanitized)
three-step registration plan for auth intent plus explicit URL. -/
def maybeBuildFastPlan (prompt : String) (defaultTarget : TargetSpec)
    (rand : Fin 12 → Fin 62) (now : Nat) : Option JSValue :=
  let normalizedPrompt := toLowerStr prompt
  let hasAuthIntent :=
    wordAltTest ["register", "sign up", "signup", "login", "log in", "sign in"]
      normalizedPrompt
  let url :=
    match findUrlMatch prompt with
    | some m => sanitizeUrl (some (.vStr m))
    | none => ""
  if hasAuthIntent && url ≠ "" then
    let details := extractAuthDetails prompt rand now
    some (.vArr [
      fastNavRaw url defaultTarget,
      fastAnalyzeRaw defaultTarget,
      fastFillRaw details.email details.username details.password defaultTarget])
  else none

/-- The registration prompt of the fast-path scenario
(`src/README.md` usage examples). -/
def registerPrompt : String :=
  "Register on https://example.com with email random and password random"

/-- `DIRECT_SITE_MAP` (`agent.js` lines 37-48). -/
def DIRECT_SITE_MAP : List (String × String) :=
  [("facebook", "https://www.facebook.com/"),
   ("instagram", "https://www.instagram.com/"),
   ("youtube", "https://www.youtube.com/"),
   ("gmail", "https://mail.google.com/"),
   ("google", "https://www.google.com/"),
   ("twitter", "https://x.com/"),
   ("x", "https://x.com/"),
   ("linkedin", "https://www.linkedin.com/"),
   ("github", "https://github.com/"),
   ("reddit", "https://www.reddit.com/")]

/-- Is a character in the domain-token class `[a-z0-9-]` (with `/i`)? -/
def isDomainTokenChar (c : Char) : Bool :=
  c.isAlphanum || c == '-'

/-- Parse `(?:\.[a-z0-9-]+)+` greedily, returning the consumed characters. -/
def domainExtra : List Char → Option (List Char)
  | '.' :: rest =>
    let seg := rest.takeWhile isDomainTokenChar
    if seg.isEmpty then none
    else
      match domainExtra (rest.drop seg.length) with
      | some more => some ('.' :: (seg ++ more))
      | none => some ('.' :: seg)
  | _ => none
termination_by l => l.length
decreasing_by
  simp only [List.length_drop, List.length_cons]
  omega

/-- The domain-token regex
`/\b([a-z0-9-]+(?:\.[a-z0-9-]+)+)(?:\/[^\s]*)?\b/i` at one position
(the trailing `\b` backtracking is simplified away: the optional path is
taken greedily, which agrees with the regex on whitespace-delimited
prompts). -/
def domainTokenHere (l : List Char) : Option (List Char) :=
  let seg1 := l.takeWhile isDomainTokenChar
  if seg1.isEmpty then none
  else
    match domainExtra (l.drop seg1.length) with
    | none => none
    | some dots =>
      let afterDomain := l.drop (seg1.length + dots.length)
      let path :=
        match afterDomain with
        | '/' :: rest => '/' :: rest.takeWhile (fun c => !c.isWhitespace)
        | _ => []
      some (seg1 ++ dots ++ path)

/-- Leftmost domain-token match with a left word boundary. -/
def domainMatchScan : Option Char → List Char → Option (List Char)
  | _, [] => none
  | pre, h :: hs =>
    if boundaryOk pre then
      match domainTokenHere (h :: hs) with
      | some tok => some tok
      | none => domainMatchScan (some h) hs
    else domainMatchScan (some h) hs

/-- `resolveNavigationUrl` (`agent.js` lines 1133-1158). -/
def resolveNavigationUrl (prompt : String) : String :=
  match findUrlMatch prompt with
  | some m => sanitizeUrl (some (.vStr m))
  | none =>
    match domainMatchScan none prompt.data with
    | some tok =>
      let domain : String := ⟨tok⟩
      let candidate :=
        if (schemeSplit domain).isSome then domain else "https://" ++ domain
      sanitizeUrl (some (.vStr candidate))
    | none =>
      let normalizedPrompt := toLowerStr prompt
      ((DIRECT_SITE_MAP.find? (fun p => wordAltTest [p.1] normalizedPrompt)).map
        Prod.snd).getD ""

/-- `maybeBuildDeterministicPlan` (`agent.js` lines 1108-1131). -/
def maybeBuildDeterministicPlan (prompt : String) (defaultTarget : TargetSpec) :
    Option JSValue :=
  let normalizedPrompt := toLowerStr prompt
  let hasNavigationIntent :=
    wordAltTest ["go to", "goto", "goes to", "open", "navigate to", "visit",
                 "take me to"] normalizedPrompt
  let hasMediaIntent :=
    wordAltTest ["play", "music", "song", "playlist", "youtube search",
                 "search youtube", "video"] normalizedPrompt
  if !hasNavigationIntent || hasMediaIntent then none
  else
    let resolvedUrl := resolveNavigationUrl prompt
    if resolvedUrl = "" then none
    else
      some (.vArr [.vObj [("action", .vStr "NAVIGATE"), ("url", .vStr resolvedUrl),
                          ("target", encodeTarget defaultTarget)]])

/-! ## Tab dispatch (`background.js` lines 119-134, 188-211)

`resolveTargetTabs` queries live browser state, so the resolved tab set
is a parameter here; `runTabAction`'s outcome on one tab (navigation or
content round-trip, either a detail/data pair or a thrown message) is an
oracle `Tab → Except String TabDetail`. -/

/-- A live browser tab as `executeActionOnTab` reads it. -/
structure Tab where
  id : Int
  title : String
  url : String
deriving Repr, DecidableEq

/-- The detail/data pair a successful `runTabAction` resolves with. -/
structure TabDetail where
  detail : String
  data : Option String := none
deriving Repr, DecidableEq

/-- A per-tab step result (`background.js` lines 188-211). -/
structure TabResult where
  status : String
  tabId : Int
  title : String
  url : String
  detail : Option String := none
  data : Option String := none
  error : Option String := none
deriving Repr, DecidableEq

/-- The aggregated response of `executeAgentPlan` for a targeted action
(`background.js` lines 124-133). -/
structure StepResponse where
  status : String
  error : Option String := none
  results : List TabResult
deriving Repr, DecidableEq

/-- `executeActionOnTab` (`background.js` lines 188-211): never throws,
wrapping the action outcome into a success or error record. -/
def executeActionOnTab (tab : Tab) (outcome : Except String TabDetail) : TabResult :=
  match outcome with
  | .ok d =>
    { status := "success", tabId := tab.id, title := tab.title, url := tab.url,
      detail := some d.detail, data := d.data }
  | .error msg =>
    { status := "error", tabId := tab.id, title := tab.title, url := tab.url,
      error := some msg }

/-- `results.find(result => result.error)?.error || 'Failed on all tabs.'`
(`background.js` line 129): first result with a truthy `error` field. -/
def firstTabError (results : List TabResult) : String :=
  match results.find? (fun r => r.error.getD "" ≠ "") with
  | some r => r.error.getD ""
  | none => "Failed on all tabs."

/-- The targeted-action tail of `executeAgentPlan` (`background.js`
lines 119-134): fan out over the resolved tabs, count successes,
return an error response carrying the first per-tab error when no tab
succeeded.  `Except.error` models the `No matching tabs` throw. -/
def executeAgentPlanTargeted (tabs : List Tab)
    (outcome : Tab → Except String TabDetail) : Except String StepResponse :=
  if tabs.isEmpty then .error "No matching tabs found for this action."
  else
    let results := tabs.map (fun tab => executeActionOnTab tab (outcome tab))
    let successCount := (results.filter (fun r => r.status = "success")).length
    if successCount = 0 then
      .ok { status := "error", error := some (firstTabError results), results }
    else
      .ok { status := "success", results }

/-! ## Run cancellation state (`background.js` lines 3, 64-78, 136-142,
437-453)

`RUN_STATES` is a process-wide map from run id to `{canceled, updatedAt}`.
The operations that touch it are: the `setRunState(runId, {canceled:
false})` performed at the top of every `executeAgentPlan` dispatch, the
`setRunState(runId, {canceled: true})` of `cancelAgentRun`, and the
read-only `throwIfCanceled` checks. -/

/-- A run's stored state. -/
structure RunState where
  canceled : Bool
deriving Repr, DecidableEq

/-- The `RUN_STATES` map, keyed by run id. -/
def RunMap : Type := List (String × RunState)

/-- Map lookup. -/
def lookupRun (m : RunMap) (runId : String) : Option RunState :=
  (List.find? (fun p => p.1 == runId) m).map Prod.snd

/-- `setRunState` (`background.js` lines 437-445): merge a partial state
over the existing entry (or a fresh `{canceled: false}`). -/
def setRunState (m : RunMap) (runId : String) (canceled : Bool) : RunMap :=
  if runId = "" then m
  else (runId, { canceled }) :: (List.filter (fun p => p.1 != runId) m)

/-- The canceled flag read by `throwIfCanceled` (`background.js`
lines 447-453): `false` when the run has no entry. -/
def runCanceled (m : RunMap) (runId : String) : Bool :=
  match lookupRun m runId with
  | some st => st.canceled
  | none => false

/-- The operations of the background runtime that touch `RUN_STATES`. -/
inductive BgOp where
  | execDispatch (runId : String)
  | cancelRun (runId : String)
  | checkCanceled (runId : String)
deriving Repr, DecidableEq

/-- Effect of one operation on the map: a step dispatch re-initialises
the run's state with `{canceled: false}` (`background.js` line 74),
`cancelAgentRun` sets `{canceled: true}` (line 140), checks only read. -/
def applyBgOp (m : RunMap) : BgOp → RunMap
  | .execDispatch runId => setRunState m runId false
  | .cancelRun runId => setRunState m runId true
  | .checkCanceled _ => m

/-- Left-to-right application of a trace of operations. -/
def runBgOps (m : RunMap) : List BgOp → RunMap
  | [] => m
  | op :: ops => runBgOps (applyBgOp m op) ops

/-! ## Content-action retry loop (`background.js` lines 253-297, 487-495) -/

/-- `isRetryableContentError` (`background.js` lines 487-495). -/
def isRetryableContentError (message : String) : Bool :=
  let normalized := toLowerStr message
  strContains normalized "receiving end does not exist" ||
  strContains normalized "frame with id 0 is showing error page" ||
  strContains normalized "cannot access contents of the page" ||
  strContains normalized "must request permission" ||
  strContains normalized "timed out waiting for tab" ||
  strContains normalized "cannot automate browser-internal pages"

/-- `maxAttempts` of `runContentAction` (`background.js` line 254). -/
def maxAttempts : Nat := 8

/-- The fixed backoff `await delay(180)` between retries
(`background.js` line 292). -/
def contentRetryBackoffMs : Nat := 180

/-- What one attempt of `runContentAction`'s body produces: a detail
string, or the message of whatever was thrown (readiness wait,
restricted-page rejection, injection, message round-trip, or a
non-success content response). -/
inductive AttemptOutcome where
  | ok (detail : String)
  | err (message : String)
deriving Repr, DecidableEq

/-- The `for (attempt = 1; attempt <= maxAttempts; attempt++)` loop of
`runContentAction` (`background.js` lines 253-297), returning the result
together with the number of attempts made and the backoff delays slept.
On an error the loop rethrows unless the message is retryable and the
ceiling is not reached. -/
def runContentAttempts (outcomes : Nat → AttemptOutcome) :
    Nat → Nat → Except String String × Nat × List Nat
  | 0, attempt => (.error "Unable to run content action.", attempt - 1, [])
  | fuel + 1, attempt =>
    match outcomes attempt with
    | .ok detail => (.ok detail, attempt, [])
    | .err message =>
      if isRetryableContentError message = true ∧ attempt ≠ maxAttempts then
        let rest := runContentAttempts outcomes fuel (attempt + 1)
        (rest.1, rest.2.1, contentRetryBackoffMs :: rest.2.2)
      else
        (.error message, attempt, [])

/-- `runContentAction` (`background.js` lines 253-297). -/
def runContentAction (outcomes : Nat → AttemptOutcome) :
    Except String String × Nat × List Nat :=
  runContentAttempts outcomes maxAttempts 1

/-! ## Orchestrator step loop (`agent.js` lines 125-186)

The loop is modelled over a logical clock: the `assertNotStopped` check
at the top of the iteration for step `i` reads the stop predicate at
instant `2*i`, and an in-flight abort of that step's dispatch (the abort
listener of `sendRuntimeMessage` rejecting the pending round-trip) is a
reading at instant `2*i + 1`.  An approval denial (`requestApprovalIfNeeded`)
skips the step; any rejection of `executeStepWithRecovery` is caught by
the inner `catch`, counted as a failure and breaks the loop
(`agent.js` lines 158-164); an `AbortError` escaping to the outer
`catch` produces the `Process stopped.` notice (lines 176-183). -/

/-- The settled outcome of `executeStepWithRecovery` for one step when no
in-flight abort interrupts it. -/
inductive StepExec where
  | ok
  | fail (message : String)
deriving Repr, DecidableEq

/-- Pre-dispatch disposition of a step: proceed, or skipped because a
high-risk approval was denied or timed out. -/
inductive Gate where
  | proceed
  | skipStep
deriving Repr, DecidableEq

/-- Terminal state of a run: the `Process stopped.` notice of the outer
catch, or the `Run summary: s completed, k skipped, f failed.` message. -/
inductive Terminal where
  | stopped
  | summary (completed skipped failed : Nat)
deriving Repr, DecidableEq

/-- Result of the step loop: which step indices began executing, and the
terminal state. -/
structure RunOutcome where
  executed : List Nat
  terminal : Terminal
deriving Repr, DecidableEq

/-- The step loop of `processAgentCommand` (`agent.js` lines 125-186)
over plan indices `i, ..., n-1` with accumulated counters.  The `fuel`
argument makes the recursion structural; `stepLoop` passes `n`, which
always suffices since each iteration advances `i` by one, so the
zero-fuel branch is unreachable from `stepLoop`. -/
def stepLoopAux (stop : Nat → Bool) (exec : Nat → StepExec) (gate : Nat → Gate)
    (isReply : Nat → Bool) (n : Nat) :
    Nat → Nat → Nat → Nat → Nat → List Nat → RunOutcome
  | 0, _, completed, skipped, failed, acc =>
    { executed := acc.reverse, terminal := .summary completed skipped failed }
  | fuel + 1, i, completed, skipped, failed, acc =>
    if i ≥ n then { executed := acc.reverse, terminal := .summary completed skipped failed }
    else if stop (2 * i) then { executed := acc.reverse, terminal := .stopped }
    else if isReply i then
      stepLoopAux stop exec gate isReply n fuel (i + 1) (completed + 1) skipped failed (i :: acc)
    else
      match gate i with
      | .skipStep =>
        stepLoopAux stop exec gate isReply n fuel (i + 1) completed (skipped + 1) failed acc
      | .proceed =>
        if stop (2 * i + 1) then
          { executed := (i :: acc).reverse, terminal := .summary completed skipped (failed + 1) }
        else
          match exec i with
          | .ok =>
            stepLoopAux stop exec gate isReply n fuel (i + 1) (completed + 1) skipped failed (i :: acc)
          | .fail _ =>
            { executed := (i :: acc).reverse, terminal := .summary completed skipped (failed + 1) }

/-- The whole step loop from step 0 (`agent.js` lines 120-174). -/
def stepLoop (stop : Nat → Bool) (exec : Nat → StepExec) (gate : Nat → Gate)
    (isReply : Nat → Bool) (n : Nat) : RunOutcome :=
  stepLoopAux stop exec gate isReply n n 0 0 0 0 []

/-! ## Element resolver (`content.js`, shipped inside `src/README.md`)

The DOM is modelled as the list of elements in document order.  Each
element carries the attribute strings the resolver reads, its DOM
`type`/`tagName` properties, the computed fillability inputs
(`disabled`, `readOnly`), the computed visibility (a field, since
`isElementVisible` reads layout state), and the set of CSS selectors the
element matches (so `document.querySelector(sel)` is the first element
in document order matching `sel`). -/

/-- A DOM element as the resolver sees it. -/
structure Elem where
  tag : String
  domType : String
  name : String
  id : String
  placeholder : String
  ariaLabel : String
  labelText : String
  autocomplete : String
  disabled : Bool
  readOnly : Bool
  visible : Bool
  selectors : List String
deriving Repr, DecidableEq

/-- `document.querySelector(sel)`: first element in document order
matching the selector. -/
def querySelector (page : List Elem) (sel : String) : Option Elem :=
  page.find? (fun e => sel ∈ e.selectors)

/-- `cleanWhitespace` (`content.js`): collapse whitespace runs into a
single space and trim. -/
def cleanWhitespace (s : String) : String :=
  let words := (s.data.splitOnP Char.isWhitespace).filter (fun w => !w.isEmpty)
  ⟨(words.intersperse [' ']).flatten⟩

/-- `normalizeText` (`content.js`): `cleanWhitespace(text).toLowerCase()`. -/
def normalizeText (s : String) : String :=
  toLowerStr (cleanWhitespace s)

/-- `isFillableField` (`content.js`): an input/textarea/select that is
enabled, writable, not of a non-fillable input type, and visible. -/
def isFillableField (e : Elem) : Bool :=
  (e.tag = "input" || e.tag = "textarea" || e.tag = "select") &&
  !e.disabled && !e.readOnly &&
  (e.tag = "input" →
    toLowerStr e.domType ∉ ["hidden", "button", "submit", "reset", "image", "file"] : Bool) &&
  e.visible

/-- The query record built inside `findFieldElement` from the descriptor. -/
structure FieldQuery where
  name : String
  label : String
  placeholder : String
  type : String
deriving Repr, DecidableEq

/-- `exactOrContainsScore` (`content.js`): exact match beats substring
containment; an empty needle scores nothing. -/
def exactOrContainsScore (haystack needle : String) (exactScore containsScore : Int) : Int :=
  if needle = "" then 0
  else if haystack = needle then exactScore
  else if strContains haystack needle then containsScore
  else 0

/-- `scoreFieldCandidate` (`content.js`). -/
def scoreFieldCandidate (e : Elem) (query : FieldQuery) : Int :=
  let name := normalizeText e.name
  let id := normalizeText e.id
  let placeholder := normalizeText e.placeholder
  let aria := normalizeText e.ariaLabel
  let label := normalizeText e.labelText
  let autocomplete := normalizeText e.autocomplete
  let actualType := normalizeText (strOr e.domType e.tag)
  exactOrContainsScore name query.name 30 10 +
  exactOrContainsScore id query.name 26 8 +
  exactOrContainsScore label (strOr query.label query.name) 28 10 +
  exactOrContainsScore placeholder (strOr query.placeholder (strOr query.label query.name)) 18 7 +
  exactOrContainsScore aria (strOr query.label query.name) 18 6 +
  exactOrContainsScore autocomplete (strOr query.name query.label) 16 5 +
  (if query.type ≠ "" then
    if actualType = query.type then 10
    else if query.type = "text" && (actualType = "search" || actualType = "email" || actualType = "url") then 4
    else 0
  else 0)

/-- A field descriptor `{selector?, name?, label?, placeholder?, type?}`
as `findFieldElement` receives it. -/
structure FieldDescriptor where
  selector : Option String := none
  name : Option String := none
  label : Option String := none
  placeholder : Option String := none
  type : Option String := none
deriving Repr, DecidableEq

/-- The query built by `findFieldElement` (`normalizeText(descriptor.x)`,
where a missing property stringifies to `""`). -/
def queryOfDescriptor (d : FieldDescriptor) : FieldQuery :=
  { name := normalizeText (d.name.getD "")
    label := normalizeText (d.label.getD "")
    placeholder := normalizeText (d.placeholder.getD "")
    type := normalizeText (d.type.getD "") }

/-- The fillable candidate list of `findFieldElement`:
`document.querySelectorAll('input, textarea, select')` filtered by
`isFillableField`, in document order. -/
def fillableCandidates (page : List Elem) : List Elem :=
  (page.filter (fun e => e.tag = "input" || e.tag = "textarea" || e.tag = "select")).filter
    isFillableField

/-- The best-candidate fold of `findFieldElement`: walk the candidates
keeping the first strictly-better scorer (`bestScore` starts at `-1`). -/
def pickBest (query : FieldQuery) : List Elem → Option Elem × Int → Option Elem × Int
  | [], acc => acc
  | e :: es, acc =>
    let score := scoreFieldCandidate e query
    pickBest query es (if score > acc.2 then (some e, score) else acc)

/-- The scoring branch of `findFieldElement` (no usable selector). -/
def resolveByScore (page : List Elem) (d : FieldDescriptor) : Option Elem :=
  let candidates := fillableCandidates page
  if candidates.isEmpty then none
  else
    let query := queryOfDescriptor d
    let best := pickBest query candidates (none, -1)
    if best.2 ≤ 0 then none else best.1

/-- `findFieldElement` (`content.js`): authoritative selector override
when it resolves to a fillable element, otherwise best-scoring candidate. -/
def findFieldElement (page : List Elem) (d : FieldDescriptor) : Option Elem :=
  match d.selector with
  | some sel =>
    if jsTrim sel ≠ "" then
      match querySelector page (jsTrim sel) with
      | some el => if isFillableField el then some el else resolveByScore page d
      | none => resolveByScore page d
    else resolveByScore page d
  | none => resolveByScore page d

/-- The `maxTextChars` clamp of `analyzePage` (`content.js`):
`clamp(Number(step.maxTextChars) || 3000, 500, 9000)`. -/
def analyzePageMaxTextChars (maxTextChars : Option JSValue) : Int :=
  clamp (jsNumOr maxTextChars 3000) 500 9000

/-! # Theorems -/

/-- C8 counterexample: the sanitizer raises a requested `maxTextChars`
of 500 (and of 550) to 600, while `analyzePage` keeps them, so the limit
is neither clamped into `[500, 9000]` at sanitization time nor treated
identically at both times. -/
theorem maxTextChars_clamp_mismatch :
    sanitizeAnalyzeMaxTextChars (some (.vNum 500)) = 600 ∧
    analyzePageMaxTextChars (some (.vNum 500)) = 500 ∧
    sanitizeAnalyzeMaxTextChars (some (.vNum 550)) = 600 ∧
    analyzePageMaxTextChars (some (.vNum 550)) = 550 := by
  decide

/-- C8 (amended): the page-operation limit is clamped into `[500, 9000]`
with default 3000, the sanitization-time limit into `[600, 9000]` with
default 3000; the two agree on every requested value in `[600, 9000]`
and both yield 3000 when the value is missing, but they differ for
requests below 600 (e.g. 500). -/
theorem maxTextChars_clamp_amended (v : Option JSValue) (n : Int)
    (h₁ : 600 ≤ n) (h₂ : n ≤ 9000) :
    500 ≤ analyzePageMaxTextChars v ∧ analyzePageMaxTextChars v ≤ 9000 ∧
    600 ≤ sanitizeAnalyzeMaxTextChars v ∧ sanitizeAnalyzeMaxTextChars v ≤ 9000 ∧
    analyzePageMaxTextChars none = 3000 ∧ sanitizeAnalyzeMaxTextChars none = 3000 ∧
    sanitizeAnalyzeMaxTextChars (some (.vNum n)) = n ∧
    analyzePageMaxTextChars (some (.vNum n)) = n ∧
    analyzePageMaxTextChars (some (.vNum 500)) = 500 ∧
    sanitizeAnalyzeMaxTextChars (some (.vNum 500)) = 600 := by
  have hn : n ≠ 0 := by omega
  refine ⟨?_, ?_, ?_, ?_, by decide, by decide, ?_, ?_, by decide, by decide⟩
  · unfold analyzePageMaxTextChars clamp; omega
  · unfold analyzePageMaxTextChars clamp; omega
  · unfold sanitizeAnalyzeMaxTextChars clamp; omega
  · unfold sanitizeAnalyzeMaxTextChars clamp; omega
  · simp only [sanitizeAnalyzeMaxTextChars, jsNumOr, jsToNumber, hn, if_false, clamp]
    omega
  · simp only [analyzePageMaxTextChars, jsNumOr, jsToNumber, hn, if_false, clamp]
    omega

/-- C8 witness: the amended clamp facts at the concrete request 700. -/
theorem maxTextChars_clamp_amended_witness :
    500 ≤ analyzePageMaxTextChars (some (.vNum 700)) ∧
    analyzePageMaxTextChars (some (.vNum 700)) ≤ 9000 ∧
    600 ≤ sanitizeAnalyzeMaxTextChars (some (.vNum 700)) ∧
    sanitizeAnalyzeMaxTextChars (some (.vNum 700)) ≤ 9000 ∧
    analyzePageMaxTextChars none = 3000 ∧ sanitizeAnalyzeMaxTextChars none = 3000 ∧
    sanitizeAnalyzeMaxTextChars (some (.vNum 700)) = 700 ∧
    analyzePageMaxTextChars (some (.vNum 700)) = 700 ∧
    analyzePageMaxTextChars (some (.vNum 500)) = 500 ∧
    sanitizeAnalyzeMaxTextChars (some (.vNum 500)) = 600 :=
  maxTextChars_clamp_amended (some (.vNum 700)) 700 (by decide) (by decide)

/-- C10: `sanitizePlan` truncates the raw candidate list to the first 20
entries before per-step validation, so a candidate at index 20 or later
never contributes; concretely, with 20 invalid candidates followed by a
valid `WAIT` candidate the output is the fallback `REPLY` even though
the index-20 candidate sanitizes successfully on its own. -/
theorem sanitizePlan_truncates_before_validation :
    (∀ (plan : JSValue) (d : TargetSpec),
      sanitizePlan plan d = sanitizePlan (truncateRawPlan plan) d) ∧
    sanitizePlan (.vArr (List.replicate 20 .vNull ++ [.vObj [("action", .vStr "WAIT")]]))
        .active = [couldNotBuildSafePlanStep] ∧
    sanitizeStep (.vObj [("action", .vStr "WAIT")]) .active =
      some { action := "WAIT", target := some .active, ms := some 800 } := by
  refine ⟨fun plan d => ?_, by decide, by decide⟩
  cases plan <;> simp [sanitizePlan, truncateRawPlan, List.take_take]

/-- C3 counterexample: after `cancelAgentRun` marks run `run-1` canceled,
dispatching one more step for the same run id (`executeAgentPlan`'s
`setRunState(runId, {canceled: false})`) resets the flag to `false`. -/
theorem runStates_reset_on_dispatch :
    runCanceled (runBgOps [] [.execDispatch "run-1", .cancelRun "run-1"]) "run-1" = true ∧
    runCanceled (runBgOps [] [.execDispatch "run-1", .cancelRun "run-1",
      .execDispatch "run-1"]) "run-1" = false := by
  decide

/-- Filtering out another run id's entries does not change this run's entry. -/
theorem find?_filter_other (runId other : String) (h : runId ≠ other) :
    ∀ l : List (String × RunState),
      List.find? (fun p => p.1 == runId) (List.filter (fun p => p.1 != other) l) =
      List.find? (fun p => p.1 == runId) l := by
  intro l
  induction l with
  | nil => rfl
  | cons a as ih =>
    by_cases ha : a.1 = other
    · have h1 : (a.1 != other) = false := by simp [ha]
      have h2 : (a.1 == runId) = false := by simp [ha, Ne.symm h]
      simp [List.filter_cons, h1, List.find?_cons, h2, ih]
    · have h1 : (a.1 != other) = true := by simp [ha]
      by_cases har : a.1 = runId
      · simp [List.filter_cons, h1, List.find?_cons, har, h]
      · have h2 : (a.1 == runId) = false := by simp [har]
        simp [List.filter_cons, h1, List.find?_cons, h2, ih]

/-- Writes to a different run id do not disturb a run's stored state. -/
theorem lookupRun_setRunState_ne (m : RunMap) (runId other : String) (b : Bool)
    (h : runId ≠ other) :
    lookupRun (setRunState m other b) runId = lookupRun m runId := by
  unfold setRunState lookupRun
  split
  · rfl
  · have hne : ((other, RunState.mk b).1 == runId) = false := by simp [Ne.symm h]
    simp [List.find?_cons, hne, find?_filter_other runId other h m]

/-- C3 (amended): the canceled flag is monotone under every run-state
operation except a step dispatch for the same run id: once
`runCanceled m runId` is `true`, a `cancelRun`, a `checkCanceled`, or an
operation for a different run id leaves it `true` (and `cancelRun`
always re-asserts it), but `executeAgentPlan`'s dispatch initialisation
for that run id resets it (see `runStates_reset_on_dispatch`). -/
theorem runCanceled_monotone_except_dispatch (m : RunMap) (runId : String) (op : BgOp)
    (hset : runCanceled m runId = true)
    (hop : op ≠ .execDispatch runId) :
    runCanceled (applyBgOp m op) runId = true ∧
    (runId ≠ "" → runCanceled (applyBgOp m (.cancelRun runId)) runId = true) := by
  constructor
  · cases op with
    | execDispatch other =>
      have hne : runId ≠ other := fun h => hop (by rw [h])
      simpa [applyBgOp, runCanceled, lookupRun_setRunState_ne m runId other false hne]
        using hset
    | cancelRun other =>
      by_cases h : runId = other
      · subst h
        by_cases hempty : runId = ""
        · simpa [applyBgOp, setRunState, hempty] using hset
        · simp [applyBgOp, runCanceled, setRunState, hempty, lookupRun, List.find?_cons]
      · simpa [applyBgOp, runCanceled, lookupRun_setRunState_ne m runId other true h]
          using hset
    | checkCanceled other => simpa [applyBgOp] using hset
  · intro hempty
    simp [applyBgOp, runCanceled, setRunState, hempty, lookupRun, List.find?_cons]

/-- C3 witness: the amended monotonicity at a concrete map and operation. -/
theorem runCanceled_monotone_except_dispatch_witness :
    runCanceled (applyBgOp [("run-1", RunState.mk true)] (.cancelRun "run-2")) "run-1" = true ∧
    ("run-1" ≠ "" →
      runCanceled (applyBgOp [("run-1", RunState.mk true)] (.cancelRun "run-1")) "run-1" = true) :=
  runCanceled_monotone_except_dispatch [("run-1", RunState.mk true)] "run-1"
    (.cancelRun "run-2") (by decide) (by decide)

/-- Behaviour of the retry loop from any attempt index within budget:
attempt count bounds, the recorded backoffs, that every attempt before
the final one failed with a retryable message, and that the final result
reports the final attempt's outcome, a transient error being surfaced
only at the attempt ceiling. -/
theorem runContentAttempts_spec (outcomes : Nat → AttemptOutcome) :
    ∀ fuel attempt, 1 ≤ attempt → attempt ≤ maxAttempts →
      fuel + attempt = maxAttempts + 1 →
      attempt ≤ (runContentAttempts outcomes fuel attempt).2.1 ∧
      (runContentAttempts outcomes fuel attempt).2.1 ≤ maxAttempts ∧
      (runContentAttempts outcomes fuel attempt).2.2 =
        List.replicate ((runContentAttempts outcomes fuel attempt).2.1 - attempt)
          contentRetryBackoffMs ∧
      (∀ k, attempt ≤ k → k < (runContentAttempts outcomes fuel attempt).2.1 →
        ∃ m, outcomes k = .err m ∧ isRetryableContentError m = true) ∧
      (∀ d, (runContentAttempts outcomes fuel attempt).1 = .ok d →
        outcomes (runContentAttempts outcomes fuel attempt).2.1 = .ok d) ∧
      (∀ m, (runContentAttempts outcomes fuel attempt).1 = .error m →
        outcomes (runContentAttempts outcomes fuel attempt).2.1 = .err m ∧
        (isRetryableContentError m = true →
          (runContentAttempts outcomes fuel attempt).2.1 = maxAttempts)) := by
  intro fuel
  induction fuel with
  | zero => intro attempt h1 h2 h3; omega
  | succ f ih =>
    intro attempt h1 h2 h3
    cases hout : outcomes attempt with
    | ok detail =>
      have hr : runContentAttempts outcomes (f + 1) attempt = (.ok detail, attempt, []) := by
        simp only [runContentAttempts, hout]
      rw [hr]
      refine ⟨le_refl _, h2, by simp, ?_, ?_, ?_⟩
      · intro k hk1 hk2
        simp only at hk2
        omega
      · intro d hd
        simp only [Except.ok.injEq] at hd
        subst hd
        simpa using hout
      · intro m hm
        exact absurd hm (by simp)
    | err message =>
      by_cases hretry : isRetryableContentError message = true ∧ attempt ≠ maxAttempts
      · have hr : runContentAttempts outcomes (f + 1) attempt =
            ((runContentAttempts outcomes f (attempt + 1)).1,
             (runContentAttempts outcomes f (attempt + 1)).2.1,
             contentRetryBackoffMs :: (runContentAttempts outcomes f (attempt + 1)).2.2) := by
          simp only [runContentAttempts, hout]
          rw [if_pos hretry]
        rw [hr]
        obtain ⟨ha, hb, hc, hd, he, hf'⟩ := ih (attempt + 1) (by omega) (by omega) (by omega)
        refine ⟨?_, ?_, ?_, ?_, ?_, ?_⟩
        · show attempt ≤ (runContentAttempts outcomes f (attempt + 1)).2.1
          omega
        · exact hb
        · show contentRetryBackoffMs :: (runContentAttempts outcomes f (attempt + 1)).2.2 =
            List.replicate ((runContentAttempts outcomes f (attempt + 1)).2.1 - attempt)
              contentRetryBackoffMs
          have hlen : (runContentAttempts outcomes f (attempt + 1)).2.1 - attempt =
              ((runContentAttempts outcomes f (attempt + 1)).2.1 - (attempt + 1)) + 1 := by
            omega
          rw [hlen, List.replicate_succ, hc]
        · intro k hk1 hk2
          simp only at hk2
          by_cases hk : k = attempt
          · subst hk
            exact ⟨message, hout, hretry.1⟩
          · exact hd k (by omega) hk2
        · exact he
        · exact hf'
      · have hr : runContentAttempts outcomes (f + 1) attempt =
            (.error message, attempt, []) := by
          simp only [runContentAttempts, hout]
          rw [if_neg hretry]
        rw [hr]
        refine ⟨le_refl _, h2, by simp, ?_, ?_, ?_⟩
        · intro k hk1 hk2
          simp only at hk2
          omega
        · intro d hd'
          exact absurd hd' (by simp)
        · intro m hm
          simp only [Except.error.injEq] at hm
          subst hm
          refine ⟨by simpa using hout, ?_⟩
          intro hretryM
          by_contra hne
          exact hretry ⟨hretryM, hne⟩

/-- C7: a content-class action is attempted at most 8 times with a fixed
180ms backoff between attempts; every retried attempt failed with a
message classified transient by `isRetryableContentError`, and the loop's
result is the final attempt's outcome — a non-transient error surfaces
at the attempt it occurs, and a transient error is surfaced only when
the 8-attempt ceiling is reached. -/
theorem runContentAction_retry_policy (outcomes : Nat → AttemptOutcome) :
    1 ≤ (runContentAction outcomes).2.1 ∧
    (runContentAction outcomes).2.1 ≤ maxAttempts ∧
    (runContentAction outcomes).2.2 =
      List.replicate ((runContentAction outcomes).2.1 - 1) contentRetryBackoffMs ∧
    (∀ k, 1 ≤ k → k < (runContentAction outcomes).2.1 →
      ∃ m, outcomes k = .err m ∧ isRetryableContentError m = true) ∧
    (∀ d, (runContentAction outcomes).1 = .ok d →
      outcomes (runContentAction outcomes).2.1 = .ok d) ∧
    (∀ m, (runContentAction outcomes).1 = .error m →
      outcomes (runContentAction outcomes).2.1 = .err m ∧
      (isRetryableContentError m = true →
        (runContentAction outcomes).2.1 = maxAttempts)) :=
  runContentAttempts_spec outcomes maxAttempts 1 (by decide) (by decide) (by decide)

/-- C7 witness: two transient failures then success — three attempts,
two 180ms backoffs, result is the third attempt's success. -/
theorem runContentAction_retry_policy_witness :
    1 ≤ (runContentAction fun k => if k < 3 then
          .err "Could not establish connection. Receiving end does not exist."
        else .ok "done").2.1 ∧
    (runContentAction fun k => if k < 3 then
          .err "Could not establish connection. Receiving end does not exist."
        else .ok "done").2.1 ≤ maxAttempts ∧
    (runContentAction fun k => if k < 3 then
          .err "Could not establish connection. Receiving end does not exist."
        else .ok "done").2.2 =
      List.replicate ((runContentAction fun k => if k < 3 then
          .err "Could not establish connection. Receiving end does not exist."
        else .ok "done").2.1 - 1) contentRetryBackoffMs ∧
    (∀ k, 1 ≤ k → k < (runContentAction fun k => if k < 3 then
          .err "Could not establish connection. Receiving end does not exist."
        else .ok "done").2.1 →
      ∃ m, (if k < 3 then
          AttemptOutcome.err "Could not establish connection. Receiving end does not exist."
        else .ok "done") = .err m ∧ isRetryableContentError m = true) ∧
    (∀ d, (runContentAction fun k => if k < 3 then
          .err "Could not establish connection. Receiving end does not exist."
        else .ok "done").1 = .ok d →
      (if ((runContentAction fun k => if k < 3 then
          AttemptOutcome.err "Could not establish connection. Receiving end does not exist."
        else .ok "done").2.1) < 3 then
          AttemptOutcome.err "Could not establish connection. Receiving end does not exist."
        else .ok "done") = .ok d) ∧
    (∀ m, (runContentAction fun k => if k < 3 then
          .err "Could not establish connection. Receiving end does not exist."
        else .ok "done").1 = .error m →
      (if ((runContentAction fun k => if k < 3 then
          AttemptOutcome.err "Could not establish connection. Receiving end does not exist."
        else .ok "done").2.1) < 3 then
          AttemptOutcome.err "Could not establish connection. Receiving end does not exist."
        else .ok "done") = .err m ∧
      (isRetryableContentError m = true →
        (runContentAction fun k => if k < 3 then
          AttemptOutcome.err "Could not establish connection. Receiving end does not exist."
        else .ok "done").2.1 = maxAttempts)) :=
  runContentAction_retry_policy (fun k => if k < 3 then
    .err "Could not establish connection. Receiving end does not exist." else .ok "done")

/-- C2: dispatching a targeted action to `N ≥ 1` resolved tabs returns
exactly `N` per-tab results; the overall status is `success` iff at
least one per-tab result succeeded; and when no tab succeeds the
response is an error carrying the first per-tab error message (per-tab
throws have non-empty messages) while the full result list is still
returned. -/
theorem executeAgentPlanTargeted_spec (tabs : List Tab)
    (outcome : Tab → Except String TabDetail)
    (hne : tabs ≠ [])
    (herr : ∀ t ∈ tabs, ∀ m, outcome t = .error m → m ≠ "") :
    ∃ resp, executeAgentPlanTargeted tabs outcome = .ok resp ∧
      resp.results = tabs.map (fun t => executeActionOnTab t (outcome t)) ∧
      resp.results.length = tabs.length ∧
      (resp.status = "success" ↔ ∃ r ∈ resp.results, r.status = "success") ∧
      ((∀ r ∈ resp.results, r.status ≠ "success") →
        resp.status = "error" ∧
        resp.error = (resp.results.head?).bind TabResult.error) := by
  have hempty : tabs.isEmpty = false := by
    cases tabs with
    | nil => exact absurd rfl hne
    | cons t ts => rfl
  unfold executeAgentPlanTargeted
  rw [hempty]
  simp only [Bool.false_eq_true, if_false]
  set results := tabs.map (fun t => executeActionOnTab t (outcome t)) with hres
  by_cases hzero : (results.filter (fun r => r.status = "success")).length = 0
  · refine ⟨_, by rw [if_pos hzero], rfl, by simp [hres], ?_, ?_⟩
    · constructor
      · intro habs
        exact absurd habs (by simp)
      · rintro ⟨r, hr, hsr⟩
        have : r ∈ results.filter (fun r => r.status = "success") := by
          simp only [List.mem_filter]
          exact ⟨hr, by simp [hsr]⟩
        rw [List.length_eq_zero] at hzero
        rw [hzero] at this
        cases this
    · intro hall
      refine ⟨rfl, ?_⟩
      cases htabs : tabs with
      | nil => exact absurd htabs hne
      | cons t ts =>
        have hhead : results = executeActionOnTab t (outcome t) ::
            ts.map (fun t => executeActionOnTab t (outcome t)) := by
          rw [hres, htabs, List.map_cons]
        cases hout : outcome t with
        | ok d =>
          exfalso
          have hmem : executeActionOnTab t (outcome t) ∈ results := by
            rw [hhead]; exact List.mem_cons_self _ _
          have := hall _ hmem
          rw [hout] at this
          exact this rfl
        | error m =>
          have hm : m ≠ "" := herr t (by rw [htabs]; exact List.mem_cons_self _ _) m hout
          have hfind : results.find? (fun r => r.error.getD "" ≠ "") =
              some (executeActionOnTab t (outcome t)) := by
            rw [hhead]
            rw [List.find?_cons]
            have : (decide ((executeActionOnTab t (outcome t)).error.getD "" ≠ "")) = true := by
              rw [hout]
              simpa [executeActionOnTab] using hm
            rw [this]
          simp only [firstTabError, hfind]
          rw [hhead]
          simp only [List.head?_cons, Option.bind_some]
          rw [hout]
          simp [executeActionOnTab]
  · refine ⟨_, by rw [if_neg hzero], rfl, by simp [hres], ?_, ?_⟩
    · simp only [true_iff]
      have hex : ∃ r, r ∈ results.filter (fun r => r.status = "success") := by
        cases hfil : results.filter (fun r => r.status = "success") with
        | nil => exact absurd (by rw [hfil]; rfl) hzero
        | cons a as => exact ⟨a, by simp [hfil]⟩
      obtain ⟨r, hr⟩ := hex
      rw [List.mem_filter] at hr
      exact ⟨r, hr.1, by simpa using hr.2⟩
    · intro hall
      exfalso
      apply hzero
      rw [List.length_eq_zero, List.filter_eq_nil_iff]
      intro r hr
      simpa using hall r hr

/-- C2 witness: one tab whose action throws — one result, error status,
the thrown message surfaced. -/
theorem executeAgentPlanTargeted_spec_witness :
    ∃ resp, executeAgentPlanTargeted [Tab.mk 7 "t" "https://a.com/"]
        (fun _ => .error "Element not found") = .ok resp ∧
      resp.results = [Tab.mk 7 "t" "https://a.com/"].map
        (fun t => executeActionOnTab t ((fun _ => .error "Element not found") t)) ∧
      resp.results.length = [Tab.mk 7 "t" "https://a.com/"].length ∧
      (resp.status = "success" ↔ ∃ r ∈ resp.results, r.status = "success") ∧
      ((∀ r ∈ resp.results, r.status ≠ "success") →
        resp.status = "error" ∧
        resp.error = (resp.results.head?).bind TabResult.error) :=
  executeAgentPlanTargeted_spec [Tab.mk 7 "t" "https://a.com/"]
    (fun _ => .error "Element not found") (by simp)
    (by
      intro t ht m hm
      have : "Element not found" = m := Except.error.inj hm
      rw [← this]
      decide)

/-- C5: for a `NAVIGATE` or `OPEN_TAB` step, risk is `high` exactly when
the destination host and the last-known host are both non-empty and
differ; in every other case — including the first step of a run, when
the last-known host is `""` — the level is `medium`. -/
theorem classifyStepRisk_navigate (step : Step) (prompt currentHost : String)
    (h : step.action = "NAVIGATE" ∨ step.action = "OPEN_TAB") :
    ((classifyStepRisk step prompt currentHost).level = "high" ↔
      (getHostFromStep step ≠ "" ∧ currentHost ≠ "" ∧
        getHostFromStep step ≠ currentHost)) ∧
    ((classifyStepRisk step prompt currentHost).level = "high" ∨
      (classifyStepRisk step prompt currentHost).level = "medium") := by
  have hlow : step.action ∉ LOW_RISK_ACTIONS := by
    rcases h with h | h <;> rw [h] <;> decide
  have heq : classifyStepRisk step prompt currentHost =
      (let targetHost := getHostFromStep step
       let reasons :=
         if targetHost ≠ "" && currentHost ≠ "" && targetHost ≠ currentHost then
           ["navigates across domains (" ++ currentHost ++ " -> " ++ targetHost ++ ")"]
         else []
       if reasons ≠ [] then
         { level := "high", reasons, timeoutMs := some 25000 }
       else
         { level := "medium", reasons := ["navigation action"] }) := by
    unfold classifyStepRisk
    rw [if_neg hlow]
    rcases h with h | h <;> rw [h] <;> rfl
  rw [heq]
  dsimp only
  by_cases hc : (getHostFromStep step ≠ "" && currentHost ≠ "" &&
      getHostFromStep step ≠ currentHost) = true
  · rw [if_pos hc]
    rw [if_pos (List.cons_ne_nil _ _)]
    refine ⟨⟨fun _ => ?_, fun _ => rfl⟩, Or.inl rfl⟩
    have hc' := hc
    simp only [Bool.and_eq_true, decide_eq_true_eq] at hc'
    exact ⟨hc'.1.1, hc'.1.2, hc'.2⟩
  · rw [if_neg hc]
    rw [if_neg (show ¬(([] : List String) ≠ []) by simp)]
    refine ⟨⟨fun habs => absurd habs (by decide), fun hrhs => ?_⟩, Or.inr rfl⟩
    exfalso
    apply hc
    simp [Bool.and_eq_true, decide_eq_true_eq, hrhs.1, hrhs.2.1, hrhs.2.2]

/-- C5 witness: a first-step navigation (no prior host) is medium; a
cross-domain navigation from a known host is high. -/
theorem classifyStepRisk_navigate_witness :
    (((classifyStepRisk { action := "NAVIGATE", url := some "https://github.com/" } "" "").level
        = "high" ↔
      (getHostFromStep { action := "NAVIGATE", url := some "https://github.com/" } ≠ "" ∧
        ("" : String) ≠ "" ∧
        getHostFromStep { action := "NAVIGATE", url := some "https://github.com/" } ≠ "")) ∧
     ((classifyStepRisk { action := "NAVIGATE", url := some "https://github.com/" } "" "").level
        = "high" ∨
      (classifyStepRisk { action := "NAVIGATE", url := some "https://github.com/" } "" "").level
        = "medium")) ∧
    (classifyStepRisk { action := "NAVIGATE", url := some "https://github.com/" } "" "").level
      = "medium" ∧
    (classifyStepRisk { action := "NAVIGATE", url := some "https://github.com/" }
      "" "example.com").level = "high" :=
  ⟨classifyStepRisk_navigate { action := "NAVIGATE", url := some "https://github.com/" } "" ""
    (Or.inl rfl), by decide, by decide⟩

/-- Every step index the loop records as executed was already recorded,
or passed its top-of-iteration cancellation check. -/
theorem stepLoopAux_executed_check (stop : Nat → Bool) (exec : Nat → StepExec)
    (gate : Nat → Gate) (isReply : Nat → Bool) (n : Nat) :
    ∀ fuel i c k f acc, n - i ≤ fuel →
      ∀ x ∈ (stepLoopAux stop exec gate isReply n fuel i c k f acc).executed,
        x ∈ acc ∨ stop (2 * x) = false := by
  intro fuel
  induction fuel with
  | zero =>
    intro i c k f acc _ x hx
    unfold stepLoopAux at hx
    simp only [List.mem_reverse] at hx
    exact Or.inl hx
  | succ fl ih =>
    intro i c k f acc hfi x hx
    unfold stepLoopAux at hx
    by_cases hin : i ≥ n
    · rw [if_pos hin] at hx
      simp only [List.mem_reverse] at hx
      exact Or.inl hx
    · rw [if_neg hin] at hx
      by_cases hstop : stop (2 * i) = true
      · rw [if_pos hstop] at hx
        simp only [List.mem_reverse] at hx
        exact Or.inl hx
      · have hstopf : stop (2 * i) = false := by simpa using hstop
        rw [if_neg hstop] at hx
        by_cases hrep : isReply i = true
        · rw [if_pos hrep] at hx
          rcases ih (i + 1) (c + 1) k f (i :: acc) (by omega) x hx with hmem | hchk
          · rcases List.mem_cons.mp hmem with rfl | hmem
            · exact Or.inr hstopf
            · exact Or.inl hmem
          · exact Or.inr hchk
        · rw [if_neg hrep] at hx
          cases hgate : gate i with
          | skipStep =>
            simp only [hgate] at hx
            exact ih (i + 1) c (k + 1) f acc (by omega) x hx
          | proceed =>
            simp only [hgate] at hx
            by_cases hmid : stop (2 * i + 1) = true
            · rw [if_pos hmid] at hx
              simp only [List.mem_reverse, List.mem_cons] at hx
              rcases hx with rfl | hmem
              · exact Or.inr hstopf
              · exact Or.inl hmem
            · rw [if_neg hmid] at hx
              cases hexec : exec i with
              | ok =>
                simp only [hexec] at hx
                rcases ih (i + 1) (c + 1) k f (i :: acc) (by omega) x hx with hmem | hchk
                · rcases List.mem_cons.mp hmem with rfl | hmem
                  · exact Or.inr hstopf
                  · exact Or.inl hmem
                · exact Or.inr hchk
              | fail m =>
                simp only [hexec] at hx
                simp only [List.mem_reverse, List.mem_cons] at hx
                rcases hx with rfl | hmem
                · exact Or.inr hstopf
                · exact Or.inl hmem

/-- If cancellation holds at the check of a step the loop genuinely
reaches (no earlier step fails and no earlier in-flight abort occurs),
the loop terminates in the stopped state. -/
theorem stepLoopAux_stops (stop : Nat → Bool) (exec : Nat → StepExec)
    (gate : Nat → Gate) (isReply : Nat → Bool) (n : Nat) :
    ∀ fuel i c k f acc T, n - i ≤ fuel → i ≤ T → T < n → stop (2 * T) = true →
      (∀ j, i ≤ j → j < T → ∀ m, exec j ≠ .fail m) →
      (∀ j, i ≤ j → j < T → stop (2 * j + 1) = true → stop (2 * j) = true) →
      (stepLoopAux stop exec gate isReply n fuel i c k f acc).terminal = .stopped := by
  intro fuel
  induction fuel with
  | zero => intro i c k f acc T hfi hiT hTn _ _ _; omega
  | succ fl ih =>
    intro i c k f acc T hfi hiT hTn hT hfail hmid
    unfold stepLoopAux
    have hin : ¬(i ≥ n) := by omega
    rw [if_neg hin]
    by_cases hstop : stop (2 * i) = true
    · rw [if_pos hstop]
    · have hiT' : i < T := by
        rcases Nat.lt_or_ge i T with h | h
        · exact h
        · have : i = T := by omega
          rw [this] at hstop
          exact absurd hT hstop
      rw [if_neg hstop]
      by_cases hrep : isReply i = true
      · rw [if_pos hrep]
        exact ih (i + 1) (c + 1) k f (i :: acc) T (by omega) (by omega) hTn hT
          (fun j hj1 hj2 => hfail j (by omega) hj2)
          (fun j hj1 hj2 => hmid j (by omega) hj2)
      · rw [if_neg hrep]
        cases hgate : gate i with
        | skipStep =>
          exact ih (i + 1) c (k + 1) f acc T (by omega) (by omega) hTn hT
            (fun j hj1 hj2 => hfail j (by omega) hj2)
            (fun j hj1 hj2 => hmid j (by omega) hj2)
        | proceed =>
          have hmidf : ¬(stop (2 * i + 1) = true) := by
            intro habs
            exact hstop (hmid i (le_refl i) hiT' habs)
          rw [if_neg hmidf]
          cases hexec : exec i with
          | ok =>
            exact ih (i + 1) (c + 1) k f (i :: acc) T (by omega) (by omega) hTn hT
              (fun j hj1 hj2 => hfail j (by omega) hj2)
              (fun j hj1 hj2 => hmid j (by omega) hj2)
          | fail m => exact absurd hexec (hfail i (le_refl i) hiT' m)

/-- C4 counterexample: with a one-step plan whose dispatch is in flight
when cancellation arrives (the stop predicate is false at the loop-top
check, instant 0, and true at the in-flight instant 1), the aborted
round-trip is caught by the loop's inner catch and the run terminates
through the run-summary path with one failed step — not in the stopped
state. -/
theorem stepLoop_midflight_cancel_not_stopped :
    (fun t => decide (1 ≤ t)) 0 = false ∧
    (fun t => decide (1 ≤ t)) 1 = true ∧
    stepLoop (fun t => decide (1 ≤ t)) (fun _ => .ok) (fun _ => .proceed)
        (fun _ => false) 1 =
      { executed := [0], terminal := .summary 0 0 1 } := by
  refine ⟨rfl, rfl, ?_⟩
  decide

/-- C4 (amended): with a stop predicate that is monotone once set, (a) a
step whose top-of-iteration check falls at or after the cancellation
instant never executes, and (b) if cancellation is observed at the check
point of a step the loop genuinely reaches — no earlier step's dispatch
failed and cancellation did not first arrive while an earlier step was
in flight — the run terminates in the stopped state; when cancellation
first arrives mid-flight, the aborted step is counted as failed and the
run ends through the run-summary path instead (see
`stepLoop_midflight_cancel_not_stopped`). -/
theorem stepLoop_cancellation (stop : Nat → Bool) (exec : Nat → StepExec)
    (gate : Nat → Gate) (isReply : Nat → Bool) (n : Nat)
    (hmono : ∀ a b, a ≤ b → stop a = true → stop b = true) :
    (∀ T i, stop T = true → T ≤ 2 * i →
      i ∉ (stepLoop stop exec gate isReply n).executed) ∧
    (∀ T, T < n → stop (2 * T) = true →
      (∀ j, j < T → ∀ m, exec j ≠ .fail m) →
      (∀ j, j < T → stop (2 * j + 1) = true → stop (2 * j) = true) →
      (stepLoop stop exec gate isReply n).terminal = .stopped) := by
  constructor
  · intro T i hT hle hmem
    rcases stepLoopAux_executed_check stop exec gate isReply n n 0 0 0 0 []
        (by omega) i hmem with habs | hchk
    · cases habs
    · rw [hmono T (2 * i) hle hT] at hchk
      cases hchk
  · intro T hTn hT hfail hmid
    exact stepLoopAux_stops stop exec gate isReply n n 0 0 0 0 [] T (by omega)
      (Nat.zero_le T) hTn hT (fun j _ hj2 => hfail j hj2) (fun j _ hj2 => hmid j hj2)

/-- C4 witness: the amended cancellation facts at a concrete three-step
run whose stop predicate turns on at instant 4 (the check of step 2). -/
theorem stepLoop_cancellation_witness :
    (∀ T i, (fun t => decide (4 ≤ t)) T = true → T ≤ 2 * i →
      i ∉ (stepLoop (fun t => decide (4 ≤ t)) (fun _ => .ok) (fun _ => .proceed)
        (fun _ => false) 3).executed) ∧
    (∀ T, T < 3 → (fun t => decide (4 ≤ t)) (2 * T) = true →
      (∀ j, j < T → ∀ m, (fun _ => StepExec.ok) j ≠ .fail m) →
      (∀ j, j < T → (fun t => decide (4 ≤ t)) (2 * j + 1) = true →
        (fun t => decide (4 ≤ t)) (2 * j) = true) →
      (stepLoop (fun t => decide (4 ≤ t)) (fun _ => .ok) (fun _ => .proceed)
        (fun _ => false) 3).terminal = .stopped) :=
  stepLoop_cancellation (fun t => decide (4 ≤ t)) (fun _ => .ok) (fun _ => .proceed)
    (fun _ => false) 3
    (fun a b hab ha => by
      simp only [decide_eq_true_eq] at *
      omega)

set_option maxHeartbeats 3200000 in
/-- Every step kept by `sanitizeStep` carries the (normalised) action
string that passed the `ALLOWED_ACTIONS` membership test. -/
theorem sanitizeByAction_action_mem {r : JSValue} {d : TargetSpec} {a : String} {s : Step}
    (h : sanitizeByAction r d a = some s) : s.action ∈ ALLOWED_ACTIONS := by
  by_cases hmem : a ∈ ALLOWED_ACTIONS
  · fin_cases hmem <;>
    · simp only [sanitizeByAction] at h
      simp [ALLOWED_ACTIONS, TAB_ACTIONS] at h
      repeat' split at h
      all_goals try exact Option.noConfusion h
      all_goals try obtain ⟨-, rfl⟩ := h
      all_goals simp [ALLOWED_ACTIONS, TAB_ACTIONS]
  · unfold sanitizeByAction at h
    rw [if_neg hmem] at h
    exact Option.noConfusion h

theorem sanitizeStep_action_mem {r : JSValue} {d : TargetSpec} {s : Step}
    (h : sanitizeStep r d = some s) : s.action ∈ ALLOWED_ACTIONS := by
  unfold sanitizeStep at h
  split at h
  · exact sanitizeByAction_action_mem h
  · exact Option.noConfusion h

/-- C1: for every raw candidate plan (any JS value) and any default
target, `sanitizePlan` returns a plan of length at most 20 whose every
step's action is in `ALLOWED_ACTIONS`, and which is never empty: when
per-step sanitization keeps nothing, the output is a single synthesized
`REPLY` step. -/
theorem sanitizePlan_safe (plan : JSValue) (defaultTarget : TargetSpec) :
    (sanitizePlan plan defaultTarget).length ≤ MAX_PLAN_STEPS ∧
    sanitizePlan plan defaultTarget ≠ [] ∧
    (∀ s ∈ sanitizePlan plan defaultTarget, s.action ∈ ALLOWED_ACTIONS) ∧
    (sanitizedSteps plan defaultTarget = [] →
      ∃ msg, sanitizePlan plan defaultTarget =
        [{ action := "REPLY", message := some msg }]) := by
  cases plan with
  | vArr rawSteps =>
    by_cases hempty :
        ((rawSteps.take MAX_PLAN_STEPS).filterMap
          (fun r => sanitizeStep r defaultTarget)).isEmpty = true
    · have hval : sanitizePlan (.vArr rawSteps) defaultTarget =
          [couldNotBuildSafePlanStep] := by
        show (if ((rawSteps.take MAX_PLAN_STEPS).filterMap
            (fun r => sanitizeStep r defaultTarget)).isEmpty = true
          then [couldNotBuildSafePlanStep]
          else (rawSteps.take MAX_PLAN_STEPS).filterMap
            (fun r => sanitizeStep r defaultTarget)) = [couldNotBuildSafePlanStep]
        rw [if_pos hempty]
      refine ⟨by rw [hval]; decide, by rw [hval]; decide, ?_, ?_⟩
      · intro s hs
        rw [hval] at hs
        rcases List.mem_singleton.mp hs with rfl
        decide
      · intro _
        exact ⟨_, hval⟩
    · have hval : sanitizePlan (.vArr rawSteps) defaultTarget =
          (rawSteps.take MAX_PLAN_STEPS).filterMap
            (fun r => sanitizeStep r defaultTarget) := by
        show (if ((rawSteps.take MAX_PLAN_STEPS).filterMap
            (fun r => sanitizeStep r defaultTarget)).isEmpty = true
          then [couldNotBuildSafePlanStep]
          else (rawSteps.take MAX_PLAN_STEPS).filterMap
            (fun r => sanitizeStep r defaultTarget)) =
          (rawSteps.take MAX_PLAN_STEPS).filterMap (fun r => sanitizeStep r defaultTarget)
        rw [if_neg hempty]
      refine ⟨?_, ?_, ?_, ?_⟩
      · rw [hval]
        calc ((rawSteps.take MAX_PLAN_STEPS).filterMap
                (fun r => sanitizeStep r defaultTarget)).length
            ≤ (rawSteps.take MAX_PLAN_STEPS).length := List.length_filterMap_le _ _
          _ ≤ MAX_PLAN_STEPS := List.length_take_le _ _
      · rw [hval]
        intro habs
        rw [habs] at hempty
        exact hempty rfl
      · intro s hs
        rw [hval] at hs
        obtain ⟨a, _, ha⟩ := List.mem_filterMap.mp hs
        exact sanitizeStep_action_mem ha
      · intro habs
        exfalso
        apply hempty
        simp only [sanitizedSteps] at habs
        rw [habs]
        rfl
  | vNull =>
    refine ⟨?_, ?_, ?_, fun _ => ⟨"Invalid plan format.", rfl⟩⟩
    · show ([invalidPlanFormatStep] : List Step).length ≤ MAX_PLAN_STEPS
      decide
    · intro habs
      have habs2 : [invalidPlanFormatStep] = ([] : List Step) := habs
      exact List.cons_ne_nil _ _ habs2
    · intro s hs
      have hs2 : s ∈ [invalidPlanFormatStep] := hs
      rcases List.mem_singleton.mp hs2 with rfl
      decide
  | vBool _ =>
    refine ⟨?_, ?_, ?_, fun _ => ⟨"Invalid plan format.", rfl⟩⟩
    · show ([invalidPlanFormatStep] : List Step).length ≤ MAX_PLAN_STEPS
      decide
    · intro habs
      have habs2 : [invalidPlanFormatStep] = ([] : List Step) := habs
      exact List.cons_ne_nil _ _ habs2
    · intro s hs
      have hs2 : s ∈ [invalidPlanFormatStep] := hs
      rcases List.mem_singleton.mp hs2 with rfl
      decide
  | vNum _ =>
    refine ⟨?_, ?_, ?_, fun _ => ⟨"Invalid plan format.", rfl⟩⟩
    · show ([invalidPlanFormatStep] : List Step).length ≤ MAX_PLAN_STEPS
      decide
    · intro habs
      have habs2 : [invalidPlanFormatStep] = ([] : List Step) := habs
      exact List.cons_ne_nil _ _ habs2
    · intro s hs
      have hs2 : s ∈ [invalidPlanFormatStep] := hs
      rcases List.mem_singleton.mp hs2 with rfl
      decide
  | vStr _ =>
    refine ⟨?_, ?_, ?_, fun _ => ⟨"Invalid plan format.", rfl⟩⟩
    · show ([invalidPlanFormatStep] : List Step).length ≤ MAX_PLAN_STEPS
      decide
    · intro habs
      have habs2 : [invalidPlanFormatStep] = ([] : List Step) := habs
      exact List.cons_ne_nil _ _ habs2
    · intro s hs
      have hs2 : s ∈ [invalidPlanFormatStep] := hs
      rcases List.mem_singleton.mp hs2 with rfl
      decide
  | vObj _ =>
    refine ⟨?_, ?_, ?_, fun _ => ⟨"Invalid plan format.", rfl⟩⟩
    · show ([invalidPlanFormatStep] : List Step).length ≤ MAX_PLAN_STEPS
      decide
    · intro habs
      have habs2 : [invalidPlanFormatStep] = ([] : List Step) := habs
      exact List.cons_ne_nil _ _ habs2
    · intro s hs
      have hs2 : s ∈ [invalidPlanFormatStep] := hs
      rcases List.mem_singleton.mp hs2 with rfl
      decide

/-- C1 witness: the safety facts at a concrete malformed plan. -/
theorem sanitizePlan_safe_witness :
    (sanitizePlan (.vArr [.vObj [("action", .vStr "LAUNCH_MISSILES")],
        .vObj [("action", .vStr "navigate"), ("url", .vStr "example.com")]]) .active).length
      ≤ MAX_PLAN_STEPS ∧
    sanitizePlan (.vArr [.vObj [("action", .vStr "LAUNCH_MISSILES")],
        .vObj [("action", .vStr "navigate"), ("url", .vStr "example.com")]]) .active ≠ [] ∧
    (∀ s ∈ sanitizePlan (.vArr [.vObj [("action", .vStr "LAUNCH_MISSILES")],
        .vObj [("action", .vStr "navigate"), ("url", .vStr "example.com")]]) .active,
      s.action ∈ ALLOWED_ACTIONS) ∧
    (sanitizedSteps (.vArr [.vObj [("action", .vStr "LAUNCH_MISSILES")],
        .vObj [("action", .vStr "navigate"), ("url", .vStr "example.com")]]) .active = [] →
      ∃ msg, sanitizePlan (.vArr [.vObj [("action", .vStr "LAUNCH_MISSILES")],
        .vObj [("action", .vStr "navigate"), ("url", .vStr "example.com")]]) .active =
        [{ action := "REPLY", message := some msg }]) :=
  sanitizePlan_safe (.vArr [.vObj [("action", .vStr "LAUNCH_MISSILES")],
    .vObj [("action", .vStr "navigate"), ("url", .vStr "example.com")]]) .active

/-- `exactOrContainsScore` with non-negative tier scores is non-negative. -/
theorem exactOrContainsScore_nonneg (haystack needle : String) (a b : Int)
    (ha : 0 ≤ a) (hb : 0 ≤ b) : 0 ≤ exactOrContainsScore haystack needle a b := by
  unfold exactOrContainsScore
  split_ifs <;> omega

/-- Candidate scores are sums of non-negative tiers, hence non-negative. -/
theorem scoreFieldCandidate_nonneg (e : Elem) (q : FieldQuery) :
    0 ≤ scoreFieldCandidate e q := by
  unfold scoreFieldCandidate
  dsimp only
  repeat' apply add_nonneg
  all_goals try exact exactOrContainsScore_nonneg _ _ _ _ (by decide) (by decide)
  split_ifs <;> decide

/-- Complete characterisation of the best-candidate fold: either nothing
beats the accumulator, or the result is the first candidate attaining
the maximum score strictly above the accumulator. -/
theorem pickBest_cases (q : FieldQuery) :
    ∀ (cs : List Elem) (acc : Option Elem × Int),
      (pickBest q cs acc = acc ∧ ∀ c ∈ cs, scoreFieldCandidate c q ≤ acc.2) ∨
      (∃ as e bs, cs = as ++ e :: bs ∧
        pickBest q cs acc = (some e, scoreFieldCandidate e q) ∧
        acc.2 < scoreFieldCandidate e q ∧
        (∀ c ∈ as, scoreFieldCandidate c q < scoreFieldCandidate e q) ∧
        (∀ c ∈ bs, scoreFieldCandidate c q ≤ scoreFieldCandidate e q)) := by
  intro cs
  induction cs with
  | nil => intro acc; exact Or.inl ⟨rfl, by simp⟩
  | cons c cs' ih =>
    intro acc
    by_cases hc : scoreFieldCandidate c q > acc.2
    · have hstep : pickBest q (c :: cs') acc =
          pickBest q cs' (some c, scoreFieldCandidate c q) := by
        have hstep0 : pickBest q (c :: cs') acc = pickBest q cs'
            (if scoreFieldCandidate c q > acc.2 then (some c, scoreFieldCandidate c q)
             else acc) := rfl
        rw [hstep0, if_pos hc]
      rcases ih (some c, scoreFieldCandidate c q) with ⟨heq, hall⟩ |
        ⟨as, e, bs, hcs, heq, hlt, has, hbs⟩
      · refine Or.inr ⟨[], c, cs', rfl, ?_, hc, by simp, ?_⟩
        · rw [hstep, heq]
        · intro c' hc'
          exact hall c' hc'
      · refine Or.inr ⟨c :: as, e, bs, by simp [hcs], ?_, ?_, ?_, hbs⟩
        · rw [hstep, heq]
        · omega
        · intro c' hc'
          rcases List.mem_cons.mp hc' with rfl | hmem
          · exact hlt
          · exact has c' hmem
    · have hstep : pickBest q (c :: cs') acc = pickBest q cs' acc := by
        have hstep0 : pickBest q (c :: cs') acc = pickBest q cs'
            (if scoreFieldCandidate c q > acc.2 then (some c, scoreFieldCandidate c q)
             else acc) := rfl
        rw [hstep0, if_neg hc]
      rcases ih acc with ⟨heq, hall⟩ | ⟨as, e, bs, hcs, heq, hlt, has, hbs⟩
      · refine Or.inl ⟨by rw [hstep, heq], ?_⟩
        intro c' hc'
        rcases List.mem_cons.mp hc' with rfl | hmem
        · omega
        · exact hall c' hmem
      · refine Or.inr ⟨c :: as, e, bs, by simp [hcs], by rw [hstep, heq], hlt, ?_, hbs⟩
        intro c' hc'
        rcases List.mem_cons.mp hc' with rfl | hmem
        · omega
        · exact has c' hmem

/-- C6: `findFieldElement` returns the selector-resolved element
immediately when the trimmed selector resolves to a fillable element
(authoritative override; in every other case it falls through to the
scoring path); the scoring path returns `none` whenever every fillable
candidate scores non-positively, and when it returns an element that
element is a fillable candidate with a strictly positive score that no
candidate exceeds, and every candidate earlier in document order scores
strictly less (first wins among equal top scores). -/
theorem findFieldElement_spec (page : List Elem) (d : FieldDescriptor) :
    (∀ sel el, d.selector = some sel → jsTrim sel ≠ "" →
      querySelector page (jsTrim sel) = some el → isFillableField el = true →
      findFieldElement page d = some el) ∧
    (findFieldElement page d = resolveByScore page d ∨
      ∃ sel el, d.selector = some sel ∧ querySelector page (jsTrim sel) = some el ∧
        isFillableField el = true ∧ findFieldElement page d = some el) ∧
    ((∀ e ∈ fillableCandidates page,
        scoreFieldCandidate e (queryOfDescriptor d) ≤ 0) →
      resolveByScore page d = none) ∧
    (∀ e, resolveByScore page d = some e →
      e ∈ fillableCandidates page ∧
      0 < scoreFieldCandidate e (queryOfDescriptor d) ∧
      (∀ c ∈ fillableCandidates page,
        scoreFieldCandidate c (queryOfDescriptor d) ≤
          scoreFieldCandidate e (queryOfDescriptor d)) ∧
      ∃ as bs, fillableCandidates page = as ++ e :: bs ∧
        ∀ c ∈ as, scoreFieldCandidate c (queryOfDescriptor d) <
          scoreFieldCandidate e (queryOfDescriptor d)) := by
  refine ⟨?_, ?_, ?_, ?_⟩
  · intro sel el hsel htrim hq hfill
    simp [findFieldElement, hsel, htrim, hq, hfill]
  · cases hsel : d.selector with
    | none => exact Or.inl (by simp [findFieldElement, hsel])
    | some sel =>
      by_cases htrim : jsTrim sel ≠ ""
      · cases hq : querySelector page (jsTrim sel) with
        | none => exact Or.inl (by simp [findFieldElement, hsel, htrim, hq])
        | some el =>
          by_cases hfill : isFillableField el = true
          · exact Or.inr ⟨sel, el, rfl, hq, hfill,
              by simp [findFieldElement, hsel, htrim, hq, hfill]⟩
          · have hfillf : isFillableField el = false := by simpa using hfill
            exact Or.inl (by simp [findFieldElement, hsel, htrim, hq, hfillf])
      · have htrim2 : jsTrim sel = "" := by simpa using htrim
        exact Or.inl (by simp [findFieldElement, hsel, htrim2])
  · intro hall
    unfold resolveByScore
    dsimp only
    by_cases hempty : (fillableCandidates page).isEmpty = true
    · rw [if_pos hempty]
    · rw [if_neg hempty]
      rcases pickBest_cases (queryOfDescriptor d) (fillableCandidates page) (none, -1) with
        ⟨_, hle⟩ | ⟨as, e, bs, hcs, heq, _, _, _⟩
      · exfalso
        cases hc : fillableCandidates page with
        | nil => exact hempty (by rw [hc]; rfl)
        | cons a rest =>
          have h1 := hle a (by rw [hc]; exact List.mem_cons_self _ _)
          have h2 := scoreFieldCandidate_nonneg a (queryOfDescriptor d)
          omega
      · have hmem : e ∈ fillableCandidates page := by
          rw [hcs]; exact List.mem_append_right _ (List.mem_cons_self _ _)
        have hle : (pickBest (queryOfDescriptor d) (fillableCandidates page) (none, -1)).2 ≤ 0 := by
          rw [heq]
          exact hall e hmem
        rw [if_pos hle]
  · intro e hres
    unfold resolveByScore at hres
    dsimp only at hres
    by_cases hempty : (fillableCandidates page).isEmpty = true
    · rw [if_pos hempty] at hres
      exact Option.noConfusion hres
    · rw [if_neg hempty] at hres
      rcases pickBest_cases (queryOfDescriptor d) (fillableCandidates page) (none, -1) with
        ⟨heq, hle⟩ | ⟨as, e', bs, hcs, heq, _, has, hbs⟩
      · exfalso
        cases hc : fillableCandidates page with
        | nil => exact hempty (by rw [hc]; rfl)
        | cons a rest =>
          have h1 := hle a (by rw [hc]; exact List.mem_cons_self _ _)
          have h2 := scoreFieldCandidate_nonneg a (queryOfDescriptor d)
          omega
      · rw [heq] at hres
        by_cases hpos : (some e', scoreFieldCandidate e' (queryOfDescriptor d)).2 ≤ 0
        · rw [if_pos hpos] at hres
          exact Option.noConfusion hres
        · rw [if_neg hpos] at hres
          obtain rfl := Option.some.inj hres
          have hposs : 0 < scoreFieldCandidate e' (queryOfDescriptor d) := by
            simpa using hpos
          have hmem : e' ∈ fillableCandidates page := by
            rw [hcs]; exact List.mem_append_right _ (List.mem_cons_self _ _)
          refine ⟨hmem, hposs, ?_, as, bs, hcs, has⟩
          intro c hcmem
          rw [hcs] at hcmem
          rcases List.mem_append.mp hcmem with hmem1 | hmem2
          · exact le_of_lt (has c hmem1)
          · rcases List.mem_cons.mp hmem2 with rfl | hmem3
            · exact le_refl _
            · exact hbs c hmem3

/-- C6 witness: the resolver facts at a concrete page with a visible
email input and a hidden input. -/
theorem findFieldElement_spec_witness :
    ((∀ sel el,
      (FieldDescriptor.mk (some "#email") (some "email") none none none).selector = some sel →
      jsTrim sel ≠ "" →
      querySelector [Elem.mk "input" "email" "email" "email" "" "" "Email" "" false false true
        ["#email"]] (jsTrim sel) = some el →
      isFillableField el = true →
      findFieldElement [Elem.mk "input" "email" "email" "email" "" "" "Email" "" false false true
        ["#email"]] (FieldDescriptor.mk (some "#email") (some "email") none none none) = some el) ∧
    (findFieldElement [Elem.mk "input" "email" "email" "email" "" "" "Email" "" false false true
        ["#email"]] (FieldDescriptor.mk (some "#email") (some "email") none none none) =
      resolveByScore [Elem.mk "input" "email" "email" "email" "" "" "Email" "" false false true
        ["#email"]] (FieldDescriptor.mk (some "#email") (some "email") none none none) ∨
      ∃ sel el,
        (FieldDescriptor.mk (some "#email") (some "email") none none none).selector = some sel ∧
        querySelector [Elem.mk "input" "email" "email" "email" "" "" "Email" "" false false true
          ["#email"]] (jsTrim sel) = some el ∧
        isFillableField el = true ∧
        findFieldElement [Elem.mk "input" "email" "email" "email" "" "" "Email" "" false false true
          ["#email"]] (FieldDescriptor.mk (some "#email") (some "email") none none none) = some el) ∧
    ((∀ e ∈ fillableCandidates [Elem.mk "input" "email" "email" "email" "" "" "Email" "" false false
        true ["#email"]],
        scoreFieldCandidate e (queryOfDescriptor
          (FieldDescriptor.mk (some "#email") (some "email") none none none)) ≤ 0) →
      resolveByScore [Elem.mk "input" "email" "email" "email" "" "" "Email" "" false false true
        ["#email"]] (FieldDescriptor.mk (some "#email") (some "email") none none none) = none) ∧
    (∀ e, resolveByScore [Elem.mk "input" "email" "email" "email" "" "" "Email" "" false false true
        ["#email"]] (FieldDescriptor.mk (some "#email") (some "email") none none none) = some e →
      e ∈ fillableCandidates [Elem.mk "input" "email" "email" "email" "" "" "Email" "" false false
        true ["#email"]] ∧
      0 < scoreFieldCandidate e (queryOfDescriptor
        (FieldDescriptor.mk (some "#email") (some "email") none none none)) ∧
      (∀ c ∈ fillableCandidates [Elem.mk "input" "email" "email" "email" "" "" "Email" "" false
          false true ["#email"]],
        scoreFieldCandidate c (queryOfDescriptor
          (FieldDescriptor.mk (some "#email") (some "email") none none none)) ≤
          scoreFieldCandidate e (queryOfDescriptor
            (FieldDescriptor.mk (some "#email") (some "email") none none none))) ∧
      ∃ as bs, fillableCandidates [Elem.mk "input" "email" "email" "email" "" "" "Email" "" false
          false true ["#email"]] = as ++ e :: bs ∧
        ∀ c ∈ as, scoreFieldCandidate c (queryOfDescriptor
          (FieldDescriptor.mk (some "#email") (some "email") none none none)) <
          scoreFieldCandidate e (queryOfDescriptor
            (FieldDescriptor.mk (some "#email") (some "email") none none none)))) :=
  findFieldElement_spec
    [Elem.mk "input" "email" "email" "email" "" "" "Email" "" false false true ["#email"]]
    (FieldDescriptor.mk (some "#email") (some "email") none none none)

/-- `dropWhile` keeps a list whose every element fails the predicate. -/
theorem dropWhile_eq_self_of_all (p : Char → Bool) (l : List Char)
    (h : ∀ c ∈ l, p c = false) : l.dropWhile p = l := by
  cases l with
  | nil => rfl
  | cons c t => simp [List.dropWhile_cons, h c (List.mem_cons_self _ _)]

/-- Trimming a string headed by a non-whitespace character keeps that head. -/
theorem jsTrim_data_head (c : Char) (l : List Char) (h : c.isWhitespace = false) :
    ∃ t, (jsTrim ⟨c :: l⟩).data = c :: t := by
  show ∃ t,
    (((c :: l).dropWhile Char.isWhitespace).reverse.dropWhile Char.isWhitespace).reverse
      = c :: t
  rw [show (c :: l).dropWhile Char.isWhitespace = c :: l by
    simp [List.dropWhile_cons, h]]
  rw [List.reverse_cons, List.dropWhile_append]
  by_cases he : (l.reverse.dropWhile Char.isWhitespace).isEmpty = true
  · rw [if_pos he]
    refine ⟨[], ?_⟩
    simp [List.dropWhile_cons, h]
  · rw [if_neg he]
    exact ⟨(l.reverse.dropWhile Char.isWhitespace).reverse, by simp⟩

/-- Trimming a string with no whitespace at all is the identity. -/
theorem jsTrim_of_no_ws (l : List Char) (h : ∀ c ∈ l, c.isWhitespace = false) :
    jsTrim ⟨l⟩ = ⟨l⟩ := by
  show (⟨((l.dropWhile Char.isWhitespace).reverse.dropWhile
    Char.isWhitespace).reverse⟩ : String) = ⟨l⟩
  rw [dropWhile_eq_self_of_all _ _ h]
  rw [dropWhile_eq_self_of_all _ _ (fun c hc => h c (List.mem_reverse.mp hc))]
  rw [List.reverse_reverse]

/-- `sanitizeText` keeps the head character of a string headed by a
non-whitespace character. -/
theorem sanitizeText_data_head (c : Char) (l : List Char) (n : Nat)
    (h : c.isWhitespace = false) (hn : 0 < n) :
    ∃ t, (sanitizeText (some (.vStr ⟨c :: l⟩)) n).data = c :: t := by
  obtain ⟨t, ht⟩ := jsTrim_data_head c l h
  have hne : jsTrim ⟨c :: l⟩ ≠ "" := by
    intro habs
    rw [habs] at ht
    exact absurd ht (by simp)
  unfold sanitizeText
  dsimp only
  rw [if_neg hne]
  refine ⟨t.take (n - 1), ?_⟩
  show (jsTrim ⟨c :: l⟩).data.take n = c :: t.take (n - 1)
  rw [ht]
  cases n with
  | zero => omega
  | succ m => simp [List.take_succ_cons]

/-- `sanitizeText` is the identity on whitespace-free strings within the
length bound. -/
theorem sanitizeText_of_no_ws (l : List Char) (n : Nat)
    (h : ∀ c ∈ l, c.isWhitespace = false) (hlen : l.length ≤ n) :
    sanitizeText (some (.vStr ⟨l⟩)) n = ⟨l⟩ := by
  unfold sanitizeText
  dsimp only
  rw [jsTrim_of_no_ws l h]
  by_cases hl : (⟨l⟩ : String) = ""
  · rw [if_pos hl]
    exact hl.symm
  · rw [if_neg hl]
    show (⟨l.take n⟩ : String) = ⟨l⟩
    rw [List.take_of_length_le hlen]

/-- A string whose head is not `r` is neither empty nor `"random"`. -/
theorem string_ne_of_head (s : String) (c : Char) (t : List Char)
    (h : s.data = c :: t) (hc : c ≠ 'r') : s ≠ "" ∧ s ≠ "random" := by
  constructor
  · intro habs
    rw [habs] at h
    exact absurd h (by simp)
  · intro habs
    rw [habs] at h
    have h2 : some 'r' = some c := by simpa using congrArg List.head? h
    exact hc (Option.some.inj h2).symm

/-- A 12-character string is neither empty nor `"random"`. -/
theorem string_ne_of_length12 (s : String) (h : s.data.length = 12) :
    s ≠ "" ∧ s ≠ "random" := by
  constructor <;> intro habs <;> rw [habs] at h <;> exact absurd h (by decide)

/-- Generated passwords have exactly 12 characters. -/
theorem generateRandomPassword_length (rand : Fin 12 → Fin 62) :
    (generateRandomPassword rand).data.length = 12 := by
  show ((List.finRange 12).map
    (fun i => passwordChars.getD (rand i).val 'a')).length = 12
  simp

/-- Every lookup into the password charset is non-whitespace. -/
theorem passwordChars_getD_not_ws (k : Nat) :
    (passwordChars.getD k 'a').isWhitespace = false := by
  by_cases hk : k < passwordChars.length
  · rw [List.getD_eq_getElem _ _ hk]
    have hall : ∀ c ∈ passwordChars, c.isWhitespace = false := by decide
    exact hall _ (List.getElem_mem _)
  · rw [List.getD_eq_default _ _ (by omega)]
    decide

/-- Generated passwords contain no whitespace. -/
theorem generateRandomPassword_no_ws (rand : Fin 12 → Fin 62) :
    ∀ c ∈ (generateRandomPassword rand).data, c.isWhitespace = false := by
  intro c hc
  have hc2 : c ∈ (List.finRange 12).map
      (fun i => passwordChars.getD (rand i).val 'a') := hc
  obtain ⟨i, _, rfl⟩ := List.mem_map.mp hc2
  exact passwordChars_getD_not_ws _

/-- The generated email address starts with the character `u`. -/
theorem email_head (now : Nat) :
    ∃ t, ("user" ++ nowSuffix now ++ "@example.com").data = 'u' :: t := by
  refine ⟨['s', 'e', 'r'] ++ (nowSuffix now).data ++ "@example.com".data, ?_⟩
  show (("user" ++ nowSuffix now) ++ "@example.com").data = _
  rw [String.data_append, String.data_append]
  show (['u', 's', 'e', 'r'] ++ (nowSuffix now).data) ++ "@example.com".data = _
  simp

/-- The generated username (the email's local part) starts with `u`. -/
theorem username_head (now : Nat) :
    ∃ t, (emailLocalPart ("user" ++ nowSuffix now ++ "@example.com")).data
      = 'u' :: t := by
  obtain ⟨t, ht⟩ := email_head now
  refine ⟨t.takeWhile (fun c => c != '@'), ?_⟩
  show ("user" ++ nowSuffix now ++ "@example.com").data.takeWhile (fun c => c != '@') = _
  rw [ht, List.takeWhile_cons]
  simp


/-- Sanitizing the fast registration plan keeps its three steps whenever
the three field values survive text sanitization. -/
theorem sanitizePlan_fastFill (e u p : String)
    (he : sanitizeText (some (.vStr e)) MAX_FIELD_TEXT_LENGTH ≠ "")
    (hu : sanitizeText (some (.vStr u)) MAX_FIELD_TEXT_LENGTH ≠ "")
    (hp : sanitizeText (some (.vStr p)) MAX_FIELD_TEXT_LENGTH ≠ "") :
    sanitizePlan (.vArr [fastNavRaw "https://example.com/" .active,
        fastAnalyzeRaw .active, fastFillRaw e u p .active]) .active =
      [{ action := "NAVIGATE", target := some .active, url := some "https://example.com/" },
       { action := "ANALYZE_PAGE", target := some .active, includeText := some true,
         maxTextChars := some 2500 },
       { action := "FILL_FORM", target := some .active,
         fields := some
           [mkFilledField (sanitizeText (some (.vStr e)) MAX_FIELD_TEXT_LENGTH)
              "email" "email" "email",
            mkFilledField (sanitizeText (some (.vStr u)) MAX_FIELD_TEXT_LENGTH)
              "username" "username" "text",
            mkFilledField (sanitizeText (some (.vStr p)) MAX_FIELD_TEXT_LENGTH)
              "password" "password" "password",
            mkFilledField (sanitizeText (some (.vStr p)) MAX_FIELD_TEXT_LENGTH)
              "confirm password" "confirm password" "password"],
         submit := some true }] := by
  have hf1e : sanitizeFormField (.vObj [("label", .vStr "email"), ("name", .vStr "email"),
      ("type", .vStr "email"), ("value", .vStr e)]) =
      (if sanitizeText (some (.vStr e)) MAX_FIELD_TEXT_LENGTH = "" then none
       else some (mkFilledField (sanitizeText (some (.vStr e)) MAX_FIELD_TEXT_LENGTH)
         "email" "email" "email")) := rfl
  have hf1 : sanitizeFormField (.vObj [("label", .vStr "email"), ("name", .vStr "email"),
      ("type", .vStr "email"), ("value", .vStr e)]) =
      some (mkFilledField (sanitizeText (some (.vStr e)) MAX_FIELD_TEXT_LENGTH)
        "email" "email" "email") := by
    rw [hf1e, if_neg he]
  have hf2e : sanitizeFormField (.vObj [("label", .vStr "username"),
      ("name", .vStr "username"), ("type", .vStr "text"), ("value", .vStr u)]) =
      (if sanitizeText (some (.vStr u)) MAX_FIELD_TEXT_LENGTH = "" then none
       else some (mkFilledField (sanitizeText (some (.vStr u)) MAX_FIELD_TEXT_LENGTH)
         "username" "username" "text")) := rfl
  have hf2 : sanitizeFormField (.vObj [("label", .vStr "username"),
      ("name", .vStr "username"), ("type", .vStr "text"), ("value", .vStr u)]) =
      some (mkFilledField (sanitizeText (some (.vStr u)) MAX_FIELD_TEXT_LENGTH)
        "username" "username" "text") := by
    rw [hf2e, if_neg hu]
  have hf3e : sanitizeFormField (.vObj [("label", .vStr "password"),
      ("name", .vStr "password"), ("type", .vStr "password"), ("value", .vStr p)]) =
      (if sanitizeText (some (.vStr p)) MAX_FIELD_TEXT_LENGTH = "" then none
       else some (mkFilledField (sanitizeText (some (.vStr p)) MAX_FIELD_TEXT_LENGTH)
         "password" "password" "password")) := rfl
  have hf3 : sanitizeFormField (.vObj [("label", .vStr "password"),
      ("name", .vStr "password"), ("type", .vStr "password"), ("value", .vStr p)]) =
      some (mkFilledField (sanitizeText (some (.vStr p)) MAX_FIELD_TEXT_LENGTH)
        "password" "password" "password") := by
    rw [hf3e, if_neg hp]
  have hf4e : sanitizeFormField (.vObj [("label", .vStr "confirm password"),
      ("name", .vStr "confirm password"), ("type", .vStr "password"),
      ("value", .vStr p)]) =
      (if sanitizeText (some (.vStr p)) MAX_FIELD_TEXT_LENGTH = "" then none
       else some (mkFilledField (sanitizeText (some (.vStr p)) MAX_FIELD_TEXT_LENGTH)
         "confirm password" "confirm password" "password")) := rfl
  have hf4 : sanitizeFormField (.vObj [("label", .vStr "confirm password"),
      ("name", .vStr "confirm password"), ("type", .vStr "password"),
      ("value", .vStr p)]) =
      some (mkFilledField (sanitizeText (some (.vStr p)) MAX_FIELD_TEXT_LENGTH)
        "confirm password" "confirm password" "password") := by
    rw [hf4e, if_neg hp]
  have hfields : List.filterMap sanitizeFormField
      [.vObj [("label", .vStr "email"), ("name", .vStr "email"),
              ("type", .vStr "email"), ("value", .vStr e)],
       .vObj [("label", .vStr "username"), ("name", .vStr "username"),
              ("type", .vStr "text"), ("value", .vStr u)],
       .vObj [("label", .vStr "password"), ("name", .vStr "password"),
              ("type", .vStr "password"), ("value", .vStr p)],
       .vObj [("label", .vStr "confirm password"), ("name", .vStr "confirm password"),
              ("type", .vStr "password"), ("value", .vStr p)]] =
      [mkFilledField (sanitizeText (some (.vStr e)) MAX_FIELD_TEXT_LENGTH)
         "email" "email" "email",
       mkFilledField (sanitizeText (some (.vStr u)) MAX_FIELD_TEXT_LENGTH)
         "username" "username" "text",
       mkFilledField (sanitizeText (some (.vStr p)) MAX_FIELD_TEXT_LENGTH)
         "password" "password" "password",
       mkFilledField (sanitizeText (some (.vStr p)) MAX_FIELD_TEXT_LENGTH)
         "confirm password" "confirm password" "password"] := by
    simp only [List.filterMap_cons, hf1, hf2, hf3, hf4, List.filterMap_nil]
  have h3e : sanitizeStep (fastFillRaw e u p .active) .active =
      (if ((List.filterMap sanitizeFormField
        [.vObj [("label", .vStr "email"), ("name", .vStr "email"),
                ("type", .vStr "email"), ("value", .vStr e)],
         .vObj [("label", .vStr "username"), ("name", .vStr "username"),
                ("type", .vStr "text"), ("value", .vStr u)],
         .vObj [("label", .vStr "password"), ("name", .vStr "password"),
                ("type", .vStr "password"), ("value", .vStr p)],
         .vObj [("label", .vStr "confirm password"), ("name", .vStr "confirm password"),
                ("type", .vStr "password"), ("value", .vStr p)]]).take 12).isEmpty
       then none
       else some { action := "FILL_FORM", target := some TargetSpec.active,
                   fields := some ((List.filterMap sanitizeFormField
                     [.vObj [("label", .vStr "email"), ("name", .vStr "email"),
                             ("type", .vStr "email"), ("value", .vStr e)],
                      .vObj [("label", .vStr "username"), ("name", .vStr "username"),
                             ("type", .vStr "text"), ("value", .vStr u)],
                      .vObj [("label", .vStr "password"), ("name", .vStr "password"),
                             ("type", .vStr "password"), ("value", .vStr p)],
                      .vObj [("label", .vStr "confirm password"),
                             ("name", .vStr "confirm password"),
                             ("type", .vStr "password"),
                             ("value", .vStr p)]]).take 12),
                   submit := some true }) := rfl
  have h3 : sanitizeStep (fastFillRaw e u p .active) .active =
      some { action := "FILL_FORM", target := some TargetSpec.active,
             fields := some
               [mkFilledField (sanitizeText (some (.vStr e)) MAX_FIELD_TEXT_LENGTH)
                  "email" "email" "email",
                mkFilledField (sanitizeText (some (.vStr u)) MAX_FIELD_TEXT_LENGTH)
                  "username" "username" "text",
                mkFilledField (sanitizeText (some (.vStr p)) MAX_FIELD_TEXT_LENGTH)
                  "password" "password" "password",
                mkFilledField (sanitizeText (some (.vStr p)) MAX_FIELD_TEXT_LENGTH)
                  "confirm password" "confirm password" "password"],
             submit := some true } := by
    rw [h3e, hfields]
    rfl
  have h1 : sanitizeStep (fastNavRaw "https://example.com/" .active) .active =
      some { action := "NAVIGATE", target := some TargetSpec.active,
             url := some "https://example.com/" } := rfl
  have h2 : sanitizeStep (fastAnalyzeRaw .active) .active =
      some { action := "ANALYZE_PAGE", target := some TargetSpec.active,
             includeText := some true, maxTextChars := some 2500 } := rfl
  have hplan : sanitizePlan (.vArr [fastNavRaw "https://example.com/" .active,
      fastAnalyzeRaw .active, fastFillRaw e u p .active]) .active =
      (if (List.filterMap (fun r => sanitizeStep r TargetSpec.active)
          [fastNavRaw "https://example.com/" .active, fastAnalyzeRaw .active,
           fastFillRaw e u p .active]).isEmpty
       then [couldNotBuildSafePlanStep]
       else List.filterMap (fun r => sanitizeStep r TargetSpec.active)
          [fastNavRaw "https://example.com/" .active, fastAnalyzeRaw .active,
           fastFillRaw e u p .active]) := rfl
  rw [hplan]
  simp only [List.filterMap_cons, h1, h2, h3, List.filterMap_nil]
  rfl

/-- C9: on the prompt `Register on https://example.com with email random
and password random` the deterministic navigator declines, the local
fast planner (no model call) produces a raw plan whose sanitization is
exactly NAVIGATE to `https://example.com/`, then ANALYZE_PAGE, then
FILL_FORM with `submit = true`, and every generated field value —
including the email and password — is non-empty and differs from the
literal string `random`. -/
theorem fastPlan_register_scenario (rand : Fin 12 → Fin 62) (now : Nat) :
    maybeBuildDeterministicPlan registerPrompt .active = none ∧
    ∃ raw fields,
      maybeBuildFastPlan registerPrompt .active rand now = some raw ∧
      sanitizePlan raw .active =
        [{ action := "NAVIGATE", target := some .active, url := some "https://example.com/" },
         { action := "ANALYZE_PAGE", target := some .active, includeText := some true,
           maxTextChars := some 2500 },
         { action := "FILL_FORM", target := some .active, fields := some fields,
           submit := some true }] ∧
      fields.length = 4 ∧
      (∀ f ∈ fields, f.value ≠ "" ∧ f.value ≠ "random") := by
  obtain ⟨te, hte⟩ := email_head now
  obtain ⟨tu, htu⟩ := username_head now
  have hemail : ("user" ++ nowSuffix now ++ "@example.com" : String) = ⟨'u' :: te⟩ :=
    congrArg String.mk hte
  have husername :
      (emailLocalPart ("user" ++ nowSuffix now ++ "@example.com") : String)
        = ⟨'u' :: tu⟩ :=
    congrArg String.mk htu
  obtain ⟨te', hte'⟩ := sanitizeText_data_head 'u' te MAX_FIELD_TEXT_LENGTH (by decide)
    (by decide)
  obtain ⟨tu', htu'⟩ := sanitizeText_data_head 'u' tu MAX_FIELD_TEXT_LENGTH (by decide)
    (by decide)
  have hpw : sanitizeText (some (.vStr (generateRandomPassword rand)))
      MAX_FIELD_TEXT_LENGTH = generateRandomPassword rand :=
    sanitizeText_of_no_ws (generateRandomPassword rand).data MAX_FIELD_TEXT_LENGTH
      (generateRandomPassword_no_ws rand)
      (by rw [generateRandomPassword_length]; decide)
  have hever : sanitizeText (some (.vStr ("user" ++ nowSuffix now ++ "@example.com")))
      MAX_FIELD_TEXT_LENGTH ≠ "" ∧
      sanitizeText (some (.vStr ("user" ++ nowSuffix now ++ "@example.com")))
      MAX_FIELD_TEXT_LENGTH ≠ "random" := by
    rw [hemail]
    exact string_ne_of_head _ 'u' te' hte' (by decide)
  have huver : sanitizeText (some (.vStr (emailLocalPart
      ("user" ++ nowSuffix now ++ "@example.com")))) MAX_FIELD_TEXT_LENGTH ≠ "" ∧
      sanitizeText (some (.vStr (emailLocalPart
      ("user" ++ nowSuffix now ++ "@example.com")))) MAX_FIELD_TEXT_LENGTH ≠ "random" := by
    rw [husername]
    exact string_ne_of_head _ 'u' tu' htu' (by decide)
  have hpver : sanitizeText (some (.vStr (generateRandomPassword rand)))
      MAX_FIELD_TEXT_LENGTH ≠ "" ∧
      sanitizeText (some (.vStr (generateRandomPassword rand)))
      MAX_FIELD_TEXT_LENGTH ≠ "random" := by
    rw [hpw]
    exact string_ne_of_length12 _ (generateRandomPassword_length rand)
  refine ⟨rfl,
    .vArr [fastNavRaw "https://example.com/" .active, fastAnalyzeRaw .active,
      fastFillRaw ("user" ++ nowSuffix now ++ "@example.com")
        (emailLocalPart ("user" ++ nowSuffix now ++ "@example.com"))
        (generateRandomPassword rand) .active],
    [mkFilledField (sanitizeText (some (.vStr ("user" ++ nowSuffix now ++ "@example.com")))
        MAX_FIELD_TEXT_LENGTH) "email" "email" "email",
     mkFilledField (sanitizeText (some (.vStr (emailLocalPart
        ("user" ++ nowSuffix now ++ "@example.com")))) MAX_FIELD_TEXT_LENGTH)
        "username" "username" "text",
     mkFilledField (sanitizeText (some (.vStr (generateRandomPassword rand)))
        MAX_FIELD_TEXT_LENGTH) "password" "password" "password",
     mkFilledField (sanitizeText (some (.vStr (generateRandomPassword rand)))
        MAX_FIELD_TEXT_LENGTH) "confirm password" "confirm password" "password"],
    rfl, sanitizePlan_fastFill _ _ _ hever.1 huver.1 hpver.1, rfl, ?_⟩
  intro f hf
  simp only [List.mem_cons, List.not_mem_nil, or_false] at hf
  rcases hf with rfl | rfl | rfl | rfl
  · exact hever
  · exact huver
  · exact hpver
  · exact hpver

/-- C9 witness: the scenario at a concrete random source and clock. -/
theorem fastPlan_register_scenario_witness :
    maybeBuildDeterministicPlan registerPrompt .active = none ∧
    ∃ raw fields,
      maybeBuildFastPlan registerPrompt .active (fun _ => ⟨0, by omega⟩) 1700000000000
        = some raw ∧
      sanitizePlan raw .active =
        [{ action := "NAVIGATE", target := some .active, url := some "https://example.com/" },
         { action := "ANALYZE_PAGE", target := some .active, includeText := some true,
           maxTextChars := some 2500 },
         { action := "FILL_FORM", target := some .active, fields := some fields,
           submit := some true }] ∧
      fields.length = 4 ∧
      (∀ f ∈ fields, f.value ≠ "" ∧ f.value ≠ "random") :=
  fastPlan_register_scenario (fun _ => ⟨0, by omega⟩) 1700000000000

end Rithcon
